import Mathlib

/-!
# AuthenticationClient and Session: a shallow embedding

The JavaScript sources `src/authentication.js` and `src/session.js` are embedded as
pure functions over an explicit state.  One value of `AuthenticationClient` holds the
fields of one client instance together with the ambient objects that instance acts on:
the events it has handed to `setTimeout(this.emit.bind(this), 0, ...)`, the storage
object behind `Session.storage`, the `AWS.config` singleton and the clock read by
`new Date()`.

The credential broker (`AWS.CognitoIdentityCredentials`) is an external collaborator.
Its handle is a record of the properties the client reads and writes plus the list of
calls made on it; what the broker does with a call is left to the environment, which
later invokes the callback it was handed.
-/

namespace CognitoAuth

/-! ## JavaScript values -/

/-- JavaScript values that occur in this program.  Numbers are the integral ones;
objects are ordered lists of own enumerable properties. -/
inductive JsVal where
  | undefined
  | null
  | bool (b : Bool)
  | num (n : Int)
  | str (s : String)
  | obj (fields : List (String × JsVal))
  deriving Repr, Inhabited

/-- An object, as its list of own properties. -/
abbrev JsObj := List (String × JsVal)

namespace JsVal

/-- The `ToBoolean` conversion used by `if (x)`, `!x`, `x || y` and `x && y`. -/
def truthy : JsVal → Bool
  | undefined => false
  | null => false
  | bool b => b
  | num n => n != 0
  | str s => s != ""
  | obj _ => true

/-- The expression `a || b`. -/
def or (a b : JsVal) : JsVal := if a.truthy then a else b

/-- The test `typeof v === 'string'`; only a string has the method `split`. -/
def isString : JsVal → Bool
  | str _ => true
  | _ => false

/-- The property key a value denotes when used as `o[v]`. -/
def toPropertyKey : JsVal → String
  | undefined => "undefined"
  | null => "null"
  | bool b => if b then "true" else "false"
  | num n => toString n
  | str s => s
  | obj _ => "[object Object]"

end JsVal

namespace JsObj

/-- Whether `k` is an own property of `o`.  This is the test `k in o` for every name
that objects do not inherit, such as `accessKeyId`; `hasIn` is the test for any name. -/
def has (o : JsObj) (k : String) : Bool := o.any (fun p => p.1 == k)

/-- The names every plain object inherits from `Object.prototype`. -/
def inheritedNames : List String :=
  ["constructor", "__defineGetter__", "__defineSetter__", "hasOwnProperty",
   "__lookupGetter__", "__lookupSetter__", "isPrototypeOf", "propertyIsEnumerable",
   "toString", "valueOf", "__proto__", "toLocaleString"]

/-- Whether a name is one every plain object inherits. -/
def inherits (k : String) : Bool := inheritedNames.contains k

/-- The test `k in o` on a plain object: an own property, or an inherited name. -/
def hasIn (o : JsObj) (k : String) : Bool := o.has k || inherits k

/-- The read `o[k]` of an own property, or of a name objects do not inherit: an absent
property reads as `undefined`. -/
def get (o : JsObj) (k : String) : JsVal :=
  match o.find? (fun p => p.1 == k) with
  | some p => p.2
  | none => JsVal.undefined

/-- The write `o[k] = v`: an existing property keeps its place, a new one is added last. -/
def set (o : JsObj) (k : String) (v : JsVal) : JsObj :=
  if o.has k then o.map (fun p => if p.1 == k then (k, v) else p) else o ++ [(k, v)]

/-- The write `o[k] = v` on a plain object whose key may be any name, as far as the own
properties go: a write under `__proto__` reaches the prototype of the object and leaves
its own properties as they are. -/
def assign (o : JsObj) (k : String) (v : JsVal) : JsObj :=
  if k == "__proto__" then o else o.set k v

/-- The statement `delete o[k]`. -/
def delete (o : JsObj) (k : String) : JsObj := o.filter (fun p => !(p.1 == k))

end JsObj

mutual
/-- The value `JSON.parse(JSON.stringify(v))` for an object `v`: properties holding
`undefined` are dropped, at every depth. -/
def JsVal.jsonClone : JsVal → JsVal
  | JsVal.obj fields => JsVal.obj (jsonCloneFields fields)
  | v => v
/-- The properties that survive `JSON.stringify`. -/
def jsonCloneFields : List (String × JsVal) → List (String × JsVal)
  | [] => []
  | (_, JsVal.undefined) :: rest => jsonCloneFields rest
  | (k, v) :: rest => (k, v.jsonClone) :: jsonCloneFields rest
end

/-- An exception raised by a `throw` statement or by the language itself. -/
inductive JsError where
  | error (message : String)
  | typeError (message : String)
  deriving Repr

/-! ## Storage and Session (`src/session.js`) -/

/-- A string held by the storage, as far as this program can tell strings apart: the
empty string, a non-empty text that `JSON.parse` rejects, a text that parses to a value
of the model, or a valid text whose value lies outside the model (an array, a number
that is not integral). -/
inductive StoredText where
  | empty
  | malformed
  | json (v : JsVal)
  | jsonOther
  deriving Repr

/-- A call made on the storage object.  `setItem` carries the value whose
`JSON.stringify` text is stored; `setText` is a `setItem` whose text is given as it
is. -/
inductive StorageOp where
  | setItem (key : String) (json : JsVal)
  | removeItem (key : String)
  | setText (key : String) (text : StoredText)
  deriving Repr

/-- The storage object, as the calls made on it, oldest first. -/
abbrev Storage := List StorageOp

/-- The private fields of a `Session` instance.  `store` and `aws` are objects. -/
structure Session where
  authToken : JsVal
  profile : JsVal
  store : JsObj
  aws : JsObj
  deriving Repr

namespace Session

/-- The constant `Session.SERIALIZED_TOKEN`. -/
def SERIALIZED_TOKEN : String := "session"

/-- The function `Session(authToken, profile, store, aws)`; an omitted object argument
is `none`. -/
def new (authToken profile : JsVal) (store aws : Option JsObj) : Session :=
  { authToken := authToken.or JsVal.null
    profile := profile.or (JsVal.obj [])
    store := store.getD []
    aws := aws.getD [] }

/-- The function `Session.cloneUtility`. -/
def cloneUtility (o : JsObj) : JsObj := jsonCloneFields o

/-- The method `toJSON`; the `store` getter hands out a clone. -/
def toJSON (s : Session) : JsVal :=
  JsVal.obj [("authToken", s.authToken), ("profile", s.profile),
    ("store", JsVal.obj (cloneUtility s.store)), ("aws", JsVal.obj s.aws)]

/-- The method `save`. -/
def save (s : Session) (st : Storage) : Storage :=
  st ++ [StorageOp.setItem SERIALIZED_TOKEN s.toJSON]

/-- The setter of `authToken`. -/
def set_authToken (s : Session) (st : Storage) (authToken : JsVal) : Session × Storage :=
  let s1 := { s with authToken := authToken }
  (s1, s1.save st)

/-- The setter of `aws`. -/
def set_aws (s : Session) (st : Storage) (aws : JsObj) : Session × Storage :=
  let s1 := { s with aws := aws }
  (s1, s1.save st)

/-- The setter of `profile`; freezing does not change the value. -/
def set_profile (s : Session) (st : Storage) (profile : JsVal) : Session × Storage :=
  let s1 := { s with profile := profile }
  (s1, s1.save st)

/-- The setter of `store`: delete the keys `k` of the private store for which
`k in store` fails, then write every property of the argument.  The test `in` also
holds for a name the argument inherits, so such a key is not deleted. -/
def set_store (s : Session) (st : Storage) (store : JsObj) : Session × Storage :=
  let kept := s.store.filter (fun p => store.hasIn p.1)
  let synced := store.foldl (fun acc p => JsObj.assign acc p.1 (JsObj.get store p.1)) kept
  let s1 := { s with store := synced }
  (s1, s1.save st)

/-- The method `clear`. -/
def clear (s : Session) (st : Storage) : Session × Storage :=
  let r1 := s.set_authToken st JsVal.null
  let r2 := r1.1.set_profile r1.2 (JsVal.obj [])
  let r3 := r2.1.set_store r2.2 []
  r3.1.set_aws r3.2 []

/-- The method `setItem`. -/
def setItem (s : Session) (st : Storage) (k : String) (v : JsVal) : Session × Storage :=
  let s1 := { s with store := JsObj.assign s.store k v }
  (s1, s1.save st)

/-- The method `getItem`, for an own property of the store or a name objects do not
inherit. -/
def getItem (s : Session) (k : String) : JsVal := JsObj.get s.store k

end Session

/-! ## Reading the storage back -/

mutual
/-- Whether a value survives `JSON.stringify` followed by `JSON.parse` unchanged: it
holds no `undefined`, at any depth. -/
def JsVal.jsonSafe : JsVal → Bool
  | JsVal.undefined => false
  | JsVal.obj fields => jsonSafeFields fields
  | _ => true
/-- Whether every property value of an object is `jsonSafe`. -/
def jsonSafeFields : List (String × JsVal) → Bool
  | [] => true
  | (_, v) :: rest => v.jsonSafe && jsonSafeFields rest
end

/-- The value `JSON.parse` returns: a value of the model, or one outside it (an array, a
number that is not integral), which is truthy and has none of the properties this
program reads. -/
inductive Parsed where
  | value (v : JsVal)
  | other
  deriving Repr

namespace JSON

/-- The text stored by `setItem(key, JSON.stringify(v))`.  For `undefined` the built-in
returns `undefined`, stored as the text `undefined`, which is not JSON. -/
def stringify : JsVal → StoredText
  | JsVal.undefined => StoredText.malformed
  | v => StoredText.json v.jsonClone

/-- The built-in `JSON.parse`; it throws on a text that is not JSON. -/
def parse : StoredText → Except JsError Parsed
  | StoredText.empty => Except.error (JsError.error "Unexpected end of JSON input")
  | StoredText.malformed => Except.error (JsError.error "Unexpected token")
  | StoredText.json v => Except.ok (Parsed.value v)
  | StoredText.jsonOther => Except.ok Parsed.other

end JSON

/-- The call `getItem(key)` on the storage: the text of the last `setItem` under the
key, `none` (for `null`) when there is none or a `removeItem` came after it. -/
def Storage.getItem (st : Storage) (key : String) : Option StoredText :=
  st.foldl (fun cur op =>
    match op with
    | StorageOp.setItem k v => if k == key then some (JSON.stringify v) else cur
    | StorageOp.removeItem k => if k == key then none else cur
    | StorageOp.setText k t => if k == key then some t else cur) none

namespace Parsed

/-- The expression `unserialized || {}`. -/
def orEmptyObject : Parsed → Parsed
  | value v => if v.truthy then value v else value (JsVal.obj [])
  | other => other

/-- The expression `parsed || null`. -/
def orNull : Parsed → Parsed
  | value v => if v.truthy then value v else value JsVal.null
  | other => other

/-- The read `u[k]` on a value that is not `null` or `undefined`, for the property names
this program reads; a primitive or an array has none of them. -/
def prop : Parsed → String → JsVal
  | value (JsVal.obj fields), k => JsObj.get fields k
  | _, _ => JsVal.undefined

end Parsed

/-- The key a call on the storage is about. -/
def StorageOp.key : StorageOp → String
  | StorageOp.setItem k _ => k
  | StorageOp.removeItem k => k
  | StorageOp.setText k _ => k

/-- The read `v[k]` on a truthy value, for the property names this program reads; a
primitive has none of them. -/
def JsVal.prop : JsVal → String → JsVal
  | JsVal.obj fields, k => JsObj.get fields k
  | _, _ => JsVal.undefined

/-- The properties of a value that is an object; `none` for any other value. -/
def JsVal.asObject : JsVal → Option JsObj
  | JsVal.obj fields => some fields
  | _ => none

namespace Session

/-- The getter of `store`. -/
def get_store (s : Session) : JsObj := cloneUtility s.store

/-- The session `new Session()`. -/
def empty : Session := Session.new JsVal.undefined JsVal.undefined none none

/-- The function `Session.fromStorage`, given what
`Session.storage.getItem(Session.SERIALIZED_TOKEN)` returns.  The result is `none` when
the record holds under `store` or `aws` a truthy value that is not an object: the
session would hold it as it is, which the fields of `Session` here do not allow. -/
def fromStorage (item : Option StoredText) : Option Session :=
  let text := match item with
    | none => StoredText.json JsVal.null
    | some StoredText.empty => StoredText.json JsVal.null
    | some t => t
  let unserialized := match JSON.parse text with
    | Except.ok parsed => parsed
    | Except.error _ => Parsed.value JsVal.null
  let u := unserialized.orEmptyObject
  match ((u.prop "store").or (JsVal.obj [])).asObject,
      ((u.prop "aws").or (JsVal.obj [])).asObject with
  | some store, some aws =>
    some (Session.new ((u.prop "authToken").or JsVal.null)
      ((u.prop "profile").or (JsVal.obj [])) (some store) (some aws))
  | _, _ => none

/-- The record last written under the session key, as `getItem` returns it. -/
def persisted (st : Storage) : Option StoredText := Storage.getItem st SERIALIZED_TOKEN

/-- A call that took the storage `st` to the result `r` made exactly one call on the
storage, a `setItem` under the session key with the serialization of the session as the
call left it, and that record is what the storage then holds under the key. -/
def writesOnce (st : Storage) (r : Session × Storage) : Prop :=
  r.2 = st ++ [StorageOp.setItem SERIALIZED_TOKEN r.1.toJSON] ∧
  persisted r.2 = some (JSON.stringify r.1.toJSON)

end Session

/-- Two objects hold the same properties: every key is in both or in neither, and reads
the same value in both. -/
def JsObj.sameMapping (a b : JsObj) : Prop :=
  ∀ k : String, JsObj.has a k = JsObj.has b k ∧ JsObj.get a k = JsObj.get b k

/-! ## AuthenticationClient (`src/authentication.js`) -/

/-- An event handed to `setTimeout(this.emit.bind(this), 0, ...)`; `deauthenticated`
carries the argument passed along, `undefined` when there is none. -/
inductive Event where
  | ready
  | authenticated
  | deauthenticated (err : JsVal)
  deriving Repr

namespace Event

/-- Recognises the `ready` event. -/
def isReady : Event → Bool
  | ready => true
  | _ => false

/-- Recognises the `authenticated` event. -/
def isAuthenticated : Event → Bool
  | authenticated => true
  | _ => false

/-- Recognises a `deauthenticated` event. -/
def isDeauthenticated : Event → Bool
  | deauthenticated _ => true
  | _ => false

end Event

/-- The two functions the client hands to the broker: the closure written inside `init`
(given to `credentials.get`) and `this._authHandler.bind(this)` (given to
`credentials.refresh`). -/
inductive Callback where
  | initGet
  | authHandler
  deriving Repr

/-- A call made on the broker handle. -/
inductive BrokerCall where
  | get (cb : Callback)
  | refresh (cb : Callback)
  | clearCachedId
  deriving Repr

/-- The broker handle `this.credentials`: its `params`, the other properties found on it
(`accessKeyId`, `secretAccessKey`, `sessionToken`, ...) and the calls made on it, oldest
first. -/
structure Credentials where
  IdentityPoolId : JsVal
  RoleArn : JsVal
  Logins : JsObj
  props : JsObj
  calls : List BrokerCall
  deriving Repr

/-- The value of `config.session`: a `Session` instance or any other value. -/
inductive SessionArg where
  | value (v : JsVal)
  | inst (s : Session)
  deriving Repr

/-- The options object given to the constructor; a property that is not there reads as
`undefined`. -/
structure Config where
  identityPoolId : JsVal
  authRoleArn : JsVal
  providerEndpoint : JsVal
  session : SessionArg
  existingAuthToken : JsVal
  emitReadyEvent : JsVal
  confirmedAuthEventsOnly : JsVal
  deriving Repr

/-- The objects a new client finds in place: the storage object and the clock. -/
structure Ambient where
  storage : Storage
  now : Int
  deriving Repr

/-- One client instance together with the objects around it: `timers` lists the events
this instance has handed to `setTimeout`, oldest first; `awsRegion` is
`AWS.config.region` and `awsCredentialsBound` tells whether `AWS.config.credentials` is
this client's handle; `now` is the reading of `new Date().getTime()`. -/
structure AuthenticationClient where
  session : Option Session
  providerEndpoint : JsVal
  credentials : Credentials
  emitReadyEvent : JsVal
  confirmedAuthEventsOnly : JsVal
  _initialized : Bool
  _ready : Bool
  timers : List Event
  storage : Storage
  awsRegion : JsVal
  awsCredentialsBound : Bool
  now : Int
  deriving Repr

namespace AuthenticationClient

/-- The expression `config.session instanceof Session`. -/
def instanceofSession : SessionArg → Bool
  | SessionArg.inst _ => true
  | SessionArg.value _ => false

/-- The truth value of `config.session`; an instance is an object. -/
def sessionArgTruthy : SessionArg → Bool
  | SessionArg.inst _ => true
  | SessionArg.value v => v.truthy

/-- The expression `config.session || null`, for an argument that passed the type
check. -/
def sessionOrNull : SessionArg → Option Session
  | SessionArg.inst s => some s
  | SessionArg.value _ => none

/-- The expression `identityPoolId.split(':')[0]` on a string. -/
def regionOf (identityPoolId : String) : String :=
  String.mk (identityPoolId.data.takeWhile (fun ch => ch != ':'))

/-- The constructor `AuthenticationClient(config)`.  A missing argument is `none`;
`handleProps` are the properties a fresh broker handle comes with.  A pool identifier
that is not a string has no `split` method. -/
def new (amb : Ambient) (handleProps : JsObj) (config : Option Config) :
    Except JsError AuthenticationClient :=
  match config with
  | none => Except.error
      (JsError.error "First arg should be options. Required: identityPoolId, authRoleArn")
  | some config =>
    if !config.identityPoolId.truthy || !config.authRoleArn.truthy then
      Except.error (JsError.error "Requires both identityPoolId and authRoleArn")
    else if !config.providerEndpoint.truthy then
      Except.error (JsError.error "Requires a providerEndpoint")
    else if sessionArgTruthy config.session && !instanceofSession config.session then
      Except.error
        (JsError.error "Session passed in config is not an instance of Authentication.Session")
    else
      match config.identityPoolId with
      | JsVal.str poolId =>
        Except.ok
          { session := sessionOrNull config.session
            providerEndpoint := config.providerEndpoint
            credentials :=
              { IdentityPoolId := config.identityPoolId
                RoleArn := config.authRoleArn
                Logins := JsObj.set [] config.providerEndpoint.toPropertyKey
                  (config.existingAuthToken.or JsVal.null)
                props := handleProps
                calls := [] }
            emitReadyEvent := config.emitReadyEvent.or (JsVal.bool false)
            confirmedAuthEventsOnly := config.confirmedAuthEventsOnly.or (JsVal.bool false)
            _initialized := false
            _ready := false
            timers := []
            storage := amb.storage
            awsRegion := JsVal.str (regionOf poolId)
            awsCredentialsBound := true
            now := amb.now }
      | _ => Except.error (JsError.typeError "config.identityPoolId.split is not a function")

/-- The call `setTimeout(this.emit.bind(this), 0, ...)`. -/
def schedule (c : AuthenticationClient) (e : Event) : AuthenticationClient :=
  { c with timers := c.timers ++ [e] }

/-- The function `AuthenticationClient.validateAwsCredentials` on an object. -/
def validateAwsCredentials (credentials : JsObj) : Bool :=
  credentials.has "accessKeyId" && credentials.has "secretAccessKey" &&
    credentials.has "sessionToken"

/-- The method `setAuthToken`. -/
def setAuthToken (c : AuthenticationClient) (authToken : JsVal) : AuthenticationClient :=
  { c with credentials :=
      { c.credentials with
        Logins := JsObj.set c.credentials.Logins c.providerEndpoint.toPropertyKey authToken } }

/-- The method `getAuthToken`. -/
def getAuthToken (c : AuthenticationClient) : JsVal :=
  JsObj.get c.credentials.Logins c.providerEndpoint.toPropertyKey

/-- The method `_onReady`. -/
def _onReady (c : AuthenticationClient) : AuthenticationClient :=
  if c._ready then c
  else
    let c1 := { c with _ready := true }
    if c1.emitReadyEvent.truthy then c1.schedule Event.ready else c1

/-- The method `_persistTokensToSession`, for the session `s` found in `this.session`. -/
def _persistTokensToSession (c : AuthenticationClient) (s : Session) : AuthenticationClient :=
  let credentials := c.credentials.props
  let r1 := s.set_authToken c.storage c.getAuthToken
  let r2 :=
    if validateAwsCredentials credentials then
      r1.1.set_aws r1.2
        [("accessKeyId", JsObj.get credentials "accessKeyId"),
         ("secretAccessKey", JsObj.get credentials "secretAccessKey"),
         ("sessionToken", JsObj.get credentials "sessionToken"),
         ("updatedAt", JsVal.num c.now)]
    else r1.1.set_aws r1.2 []
  { c with session := some r2.1, storage := r2.2 }

/-- The method `_onAuth`. -/
def _onAuth (c : AuthenticationClient) : AuthenticationClient :=
  let c1 := match c.session with
    | some s => c._persistTokensToSession s
    | none => c
  let c2 := c1._onReady
  if c2._initialized || !c2.confirmedAuthEventsOnly.truthy then
    c2.schedule Event.authenticated
  else c2

/-- The method `_onDeauth`; a call without argument passes `undefined`. -/
def _onDeauth (c : AuthenticationClient) (err : JsVal) : AuthenticationClient :=
  let c1 := match c.session with
    | some s =>
      let r := s.clear c.storage
      { c with session := some r.1, storage := r.2 }
    | none => c
  let c2 := c1._onReady
  if c2._initialized || !c2.confirmedAuthEventsOnly.truthy then
    c2.schedule (Event.deauthenticated err)
  else c2

/-- The method `_authHandler`; a call without argument passes `undefined`. -/
def _authHandler (c : AuthenticationClient) (err : JsVal) : AuthenticationClient :=
  if err.truthy then c._onDeauth err else c._onAuth

/-- A call on the broker handle is recorded. -/
def brokerCall (c : AuthenticationClient) (call : BrokerCall) : AuthenticationClient :=
  { c with credentials := { c.credentials with calls := c.credentials.calls ++ [call] } }

/-- The assignment `this.credentials[k] = v`. -/
def setCredentialProp (c : AuthenticationClient) (k : String) (v : JsVal) :
    AuthenticationClient :=
  { c with credentials := { c.credentials with props := JsObj.set c.credentials.props k v } }

/-- The method `init`, up to the return of the call; the closure given to
`credentials.get` is `initGetCallback`. -/
def init (c : AuthenticationClient) : AuthenticationClient :=
  if c.getAuthToken.truthy then
    let c1 := match c.session with
      | some s =>
        if validateAwsCredentials s.aws then
          (((c.setCredentialProp "accessKeyId" (JsObj.get s.aws "accessKeyId")).setCredentialProp
            "secretAccessKey" (JsObj.get s.aws "secretAccessKey")).setCredentialProp
            "sessionToken" (JsObj.get s.aws "sessionToken"))._onAuth
        else c
      | none => c
    c1.brokerCall (BrokerCall.get Callback.initGet)
  else
    ({ c with _initialized := true })._onDeauth JsVal.undefined

/-- The closure `function(err) { _this._initialized = true; _this._authHandler(err); }`
written in `init`. -/
def initGetCallback (c : AuthenticationClient) (err : JsVal) : AuthenticationClient :=
  ({ c with _initialized := true })._authHandler err

/-- The method `open`, up to the return of the call. -/
def open_ (c : AuthenticationClient) (authToken : JsVal) : AuthenticationClient :=
  (c.setAuthToken authToken).brokerCall (BrokerCall.refresh Callback.authHandler)

/-- The method `close`, up to the return of the call. -/
def close (c : AuthenticationClient) : AuthenticationClient :=
  (((c.setAuthToken JsVal.null).brokerCall BrokerCall.clearCachedId).brokerCall
    (BrokerCall.refresh Callback.authHandler))

/-- The method `isAuthenticated`. -/
def isAuthenticated (c : AuthenticationClient) : Bool :=
  if c.getAuthToken.truthy then validateAwsCredentials c.credentials.props else false

/-- The broker invokes a callback it was handed, with its error argument. -/
def runCallback (c : AuthenticationClient) (cb : Callback) (err : JsVal) :
    AuthenticationClient :=
  match cb with
  | Callback.initGet => c.initGetCallback err
  | Callback.authHandler => c._authHandler err

end AuthenticationClient

/-- One thing that happens to a client: a method call by the application, a callback
invoked by the broker, or the broker writing a property on its handle. -/
inductive Op where
  | init
  | open_ (authToken : JsVal)
  | close
  | setAuthToken (authToken : JsVal)
  | callback (cb : Callback) (err : JsVal)
  | onAuth
  | onDeauth (err : JsVal)
  | authHandler (err : JsVal)
  | brokerWrites (k : String) (v : JsVal)
  deriving Repr

namespace AuthenticationClient

/-- The effect of one `Op`. -/
def step (c : AuthenticationClient) : Op → AuthenticationClient
  | Op.init => c.init
  | Op.open_ t => c.open_ t
  | Op.close => c.close
  | Op.setAuthToken t => c.setAuthToken t
  | Op.callback cb err => c.runCallback cb err
  | Op.onAuth => c._onAuth
  | Op.onDeauth err => c._onDeauth err
  | Op.authHandler err => c._authHandler err
  | Op.brokerWrites k v => c.setCredentialProp k v

/-- The effect of a sequence of `Op`s, first to last. -/
def run (c : AuthenticationClient) (ops : List Op) : AuthenticationClient :=
  ops.foldl step c

/-- The events of one kind among those scheduled. -/
def countEvents (p : Event → Bool) (c : AuthenticationClient) : Nat :=
  c.timers.countP p

end AuthenticationClient

/-! ## The factories `webFactory` and `resumeSession` -/

/-- What `webFactory` returns: the client, with the storage key its two listeners were
given. -/
structure WebClient where
  client : AuthenticationClient
  storageKey : String
  deriving Repr

namespace AuthenticationClient

/-- The body of `webFactory.readStorage`, given what `localStorage.getItem(storageKey)`
returns. -/
def webFactory.readItem (item : Option StoredText) : JsVal :=
  let text := match item with
    | none => StoredText.json JsVal.null
    | some StoredText.empty => StoredText.json JsVal.null
    | some t => t
  let token := match JSON.parse text with
    | Except.ok parsed => parsed.orNull
    | Except.error _ => Parsed.value JsVal.null
  match token with
  | Parsed.value (JsVal.str t) => if (JsVal.str t).truthy then JsVal.str t else JsVal.null
  | _ => JsVal.null

/-- The function `webFactory.readStorage`. -/
def webFactory.readStorage (st : Storage) (storageKey : String) : JsVal :=
  webFactory.readItem (Storage.getItem st storageKey)

/-- The function `webFactory.writeStorage`. -/
def webFactory.writeStorage (st : Storage) (storageKey : String) (authToken : JsVal) :
    Storage :=
  if authToken.truthy && authToken.isString then
    st ++ [StorageOp.setItem storageKey authToken]
  else
    st ++ [StorageOp.removeItem storageKey]

/-- The key `storageKey || 'authToken'`, as the storage takes it. -/
def webFactory.keyOf (storageKey : JsVal) : String :=
  (storageKey.or (JsVal.str "authToken")).toPropertyKey

/-- The function `webFactory`, up to its return; a missing config is `none`, and reading
a property of it throws. -/
def webFactory (amb : Ambient) (handleProps : JsObj) (config : Option Config)
    (storageKey : JsVal) : Except JsError WebClient :=
  match config with
  | none => Except.error (JsError.typeError "Cannot read properties of undefined")
  | some config =>
    let key := webFactory.keyOf storageKey
    let config1 := { config with
      existingAuthToken :=
        config.existingAuthToken.or (webFactory.readStorage amb.storage key) }
    match new amb handleProps (some config1) with
    | Except.ok authClient => Except.ok { client := authClient, storageKey := key }
    | Except.error e => Except.error e

/-- The function `resumeSession`.  The outer `none` is the case `Session.fromStorage`
leaves open. -/
def resumeSession (amb : Ambient) (handleProps : JsObj) (config : Option Config) :
    Option (Except JsError AuthenticationClient) :=
  match config with
  | none => some (Except.error (JsError.typeError "Cannot read properties of undefined"))
  | some config =>
    match config.session with
    | SessionArg.inst s =>
      some (new amb handleProps (some { config with
        existingAuthToken := config.existingAuthToken.or s.authToken }))
    | SessionArg.value v =>
      if v.truthy then
        some (new amb handleProps (some { config with
          existingAuthToken := config.existingAuthToken.or (v.prop "authToken") }))
      else
        match Session.fromStorage (Session.persisted amb.storage) with
        | some s =>
          some (new amb handleProps (some { config with
            session := SessionArg.inst s
            existingAuthToken := config.existingAuthToken.or s.authToken }))
        | none => none

end AuthenticationClient

namespace WebClient

/-- The listener of `authenticated` that `webFactory` registers. -/
def onAuthenticated (w : WebClient) : WebClient :=
  { w with client := { w.client with
      storage := AuthenticationClient.webFactory.writeStorage w.client.storage w.storageKey
        w.client.getAuthToken } }

/-- The listener of `deauthenticated` that `webFactory` registers. -/
def onDeauthenticated (w : WebClient) : WebClient :=
  { w with client := { w.client with
      storage := AuthenticationClient.webFactory.writeStorage w.client.storage w.storageKey
        JsVal.null } }

end WebClient

/-! ## Derived notions used in the statements -/

namespace AuthenticationClient

/-- The `ready` event `_onReady` schedules from a given state, if any. -/
def readyEvents (c : AuthenticationClient) : List Event :=
  if !c._ready && c.emitReadyEvent.truthy then [Event.ready] else []

/-- Whether `init` finds a session whose `aws` passes `validateAwsCredentials`, the
condition of its cached-session branch. -/
def resumesCachedSession (c : AuthenticationClient) : Bool :=
  match c.session with
  | some s => validateAwsCredentials s.aws
  | none => false

/-- The test `this._initialized || !this.confirmedAuthEventsOnly` that guards the
scheduling of `authenticated` and `deauthenticated`. -/
def eventGate (c : AuthenticationClient) : Bool :=
  c._initialized || !c.confirmedAuthEventsOnly.truthy

/-- The broker writes properties on its handle, one after the other. -/
def brokerStores (c : AuthenticationClient) (writes : List (String × JsVal)) :
    AuthenticationClient :=
  writes.foldl (fun acc w => acc.setCredentialProp w.1 w.2) c

/-- Whether an `Except` value is a normal return. -/
def returns {ε α : Type} : Except ε α → Bool
  | Except.ok _ => true
  | Except.error _ => false

end AuthenticationClient

/-! ## Sample inputs -/

/-- A storage that was never written to, and some reading of the clock. -/
def sampleAmbient : Ambient := { storage := [], now := 1700000000000 }

/-- The config of the scenario in the specification. -/
def scenarioConfig : Config :=
  { identityPoolId := JsVal.str "us-east-1:xxx"
    authRoleArn := JsVal.str "r"
    providerEndpoint := JsVal.str "p"
    session := SessionArg.value JsVal.undefined
    existingAuthToken := JsVal.str "tok1"
    emitReadyEvent := JsVal.undefined
    confirmedAuthEventsOnly := JsVal.undefined }

/-- The client the constructor returns for `scenarioConfig`. -/
def scenarioClient : AuthenticationClient :=
  { session := none
    providerEndpoint := JsVal.str "p"
    credentials :=
      { IdentityPoolId := JsVal.str "us-east-1:xxx"
        RoleArn := JsVal.str "r"
        Logins := [("p", JsVal.str "tok1")]
        props := []
        calls := [] }
    emitReadyEvent := JsVal.bool false
    confirmedAuthEventsOnly := JsVal.bool false
    _initialized := false
    _ready := false
    timers := []
    storage := []
    awsRegion := JsVal.str "us-east-1"
    awsCredentialsBound := true
    now := 1700000000000 }

/-- A session that holds a token and a full set of cached credentials. -/
def cachedSession : Session :=
  { authToken := JsVal.str "tok1"
    profile := JsVal.obj []
    store := []
    aws := [("accessKeyId", JsVal.str "AKIA"), ("secretAccessKey", JsVal.str "secret"),
      ("sessionToken", JsVal.str "st"), ("updatedAt", JsVal.num 1)] }

/-- The scenario config with `cachedSession` attached. -/
def cachedConfig : Config := { scenarioConfig with session := SessionArg.inst cachedSession }

/-- The client the constructor returns for `cachedConfig`. -/
def cachedClient : AuthenticationClient := { scenarioClient with session := some cachedSession }

/-- A config without token. -/
def tokenlessConfig : Config := { scenarioConfig with existingAuthToken := JsVal.undefined }

/-- The client the constructor returns for `tokenlessConfig`. -/
def tokenlessClient : AuthenticationClient :=
  { scenarioClient with
    credentials := { scenarioClient.credentials with Logins := [("p", JsVal.null)] } }

/-- A config without token that asks for confirmed events only. -/
def strictConfig : Config :=
  { tokenlessConfig with confirmedAuthEventsOnly := JsVal.bool true }

/-- The client the constructor returns for `strictConfig`. -/
def strictClient : AuthenticationClient :=
  { tokenlessClient with confirmedAuthEventsOnly := JsVal.bool true }

/-- A config without token that asks for the `ready` event. -/
def readyConfig : Config := { tokenlessConfig with emitReadyEvent := JsVal.bool true }

/-- The client the constructor returns for `readyConfig`. -/
def readyClient : AuthenticationClient :=
  { tokenlessClient with emitReadyEvent := JsVal.bool true }

/-- The scenario config with a plain object where a session is expected. -/
def plainObjectSessionConfig : Config :=
  { scenarioConfig with session := SessionArg.value (JsVal.obj []) }

/-- The scenario config with the number zero where a session is expected. -/
def zeroSessionConfig : Config :=
  { scenarioConfig with session := SessionArg.value (JsVal.num 0) }

/-- The scenario client once `init()` has run, the broker has stored credentials on its
handle and the fetch has completed without error. -/
def authenticatedClient : AuthenticationClient :=
  (scenarioClient.init.brokerStores
    [("accessKeyId", JsVal.str "AKIA"), ("secretAccessKey", JsVal.str "secret"),
     ("sessionToken", JsVal.str "st")]).initGetCallback JsVal.undefined

/-- The store `{a: 1, b: 2}`. -/
def storeBefore : JsObj := [("a", JsVal.num 1), ("b", JsVal.num 2)]

/-- The store `{b: 3, c: 4}`. -/
def storeAfter : JsObj := [("b", JsVal.num 3), ("c", JsVal.num 4)]

/-- A session whose store is `storeBefore`. -/
def storeSession : Session :=
  { authToken := JsVal.null, profile := JsVal.obj [], store := storeBefore, aws := [] }

/-- The object `{a: undefined}`. -/
def undefinedStore : JsObj := [("a", JsVal.undefined)]

/-- A session whose token is the empty string. -/
def emptyTokenSession : Session :=
  { authToken := JsVal.str "", profile := JsVal.obj [], store := [], aws := [] }

/-- The texts `{`, `_`, the empty text, `1`, `0.1`, `[]`, `{}` and `"`, in this order,
as `JSON.parse` takes them. -/
def malformedData : List StoredText :=
  [StoredText.malformed, StoredText.malformed, StoredText.empty,
   StoredText.json (JsVal.num 1), StoredText.jsonOther, StoredText.jsonOther,
   StoredText.json (JsVal.obj []), StoredText.malformed]

/-- A storage in which the token `fake123` was stored under `storageKey`, and the
session key holds a record with another token. -/
def tokenStorage : Storage :=
  [StorageOp.setText "storageKey" (StoredText.json (JsVal.str "fake123")),
   StorageOp.setItem "session" cachedSession.toJSON]

/-- The objects a client finds when the storage is `tokenStorage`. -/
def storedAmbient : Ambient := { storage := tokenStorage, now := 1700000000000 }

/-- The credential properties of a handle fresh from
`new AWS.CognitoIdentityCredentials(...)`: the constructor of the credentials class
assigns `accessKeyId`, `secretAccessKey` and `sessionToken`, and nothing is known yet,
so all three are there and hold `undefined`. -/
def sdkHandleProps : JsObj :=
  [("accessKeyId", JsVal.undefined), ("secretAccessKey", JsVal.undefined),
   ("sessionToken", JsVal.undefined)]

/-- The client the constructor returns for `scenarioConfig` on such a handle. -/
def sdkScenarioClient : AuthenticationClient :=
  { scenarioClient with
    credentials := { scenarioClient.credentials with props := sdkHandleProps } }

/-- The session after `new Session()` and `setItem('constructor', 1)`. -/
def inheritedKeySession : Session :=
  (Session.empty.setItem [] "constructor" (JsVal.num 1)).1

/-- The scenario config with `inheritedKeySession` attached. -/
def inheritedKeyConfig : Config :=
  { scenarioConfig with session := SessionArg.inst inheritedKeySession }

/-- The client the constructor returns for `inheritedKeyConfig`. -/
def inheritedKeyClient : AuthenticationClient :=
  { scenarioClient with session := some inheritedKeySession }

/-- An error object as a broker hands it to a callback. -/
def sampleError : JsVal := JsVal.obj [("message", JsVal.str "timeout")]

/-! ## Properties of objects -/

namespace JsObj

theorem has_set (o : JsObj) (k k2 : String) (v : JsVal) :
    JsObj.has (JsObj.set o k v) k2 = (JsObj.has o k2 || k == k2) := by
  unfold JsObj.set
  by_cases hk : JsObj.has o k = true
  · rw [if_pos hk]
    by_cases e : k = k2
    · subst e
      simp only [JsObj.has] at hk ⊢
      simp only [List.any_eq_true] at hk
      obtain ⟨q, hq, hqk⟩ := hk
      simp only [beq_self_eq_true, Bool.or_true, List.any_eq_true]
      refine ⟨_, List.mem_map_of_mem _ hq, ?_⟩
      simp [hqk]
    · have hne : (k == k2) = false := by simpa using e
      rw [hne, Bool.or_false]
      simp only [JsObj.has, List.any_map]
      congr 1
      funext q
      by_cases hq : q.1 = k
      · simp [hq, e]
      · simp [hq]
  · rw [if_neg hk]
    simp [JsObj.has, List.any_append]

theorem get_set_same (o : JsObj) (k : String) (v : JsVal) :
    JsObj.get (JsObj.set o k v) k = v := by
  unfold JsObj.set
  by_cases hk : JsObj.has o k = true
  · rw [if_pos hk]
    induction o with
    | nil => simp [JsObj.has] at hk
    | cons q rest ih =>
      by_cases hq : q.1 = k
      · simp [JsObj.get, List.find?, hq]
      · have hr : JsObj.has rest k = true := by
          simpa [JsObj.has, hq] using hk
        have hb : (q.1 == k) = false := by simpa using hq
        have := ih hr
        simpa [JsObj.get, List.find?, hq, hb] using this
  · rw [if_neg hk]
    have hnone : o.find? (fun q => q.1 == k) = none := by
      simp only [List.find?_eq_none]
      intro q hq hqk
      exact hk (by simp only [JsObj.has, List.any_eq_true]; exact ⟨q, hq, hqk⟩)
    simp [JsObj.get, List.find?_append, hnone]

theorem get_set_other (o : JsObj) (k k2 : String) (v : JsVal) (hne : k ≠ k2) :
    JsObj.get (JsObj.set o k v) k2 = JsObj.get o k2 := by
  have hb : (k == k2) = false := by simpa using hne
  unfold JsObj.set
  by_cases hk : JsObj.has o k = true
  · rw [if_pos hk]
    clear hk
    induction o with
    | nil => rfl
    | cons q rest ih =>
      by_cases hq : q.1 = k
      · have hq2 : (q.1 == k2) = false := by rw [hq]; exact hb
        simpa [JsObj.get, List.find?, hq, hb, hq2] using ih
      · by_cases hq2 : q.1 = k2
        · have hne2 : ¬ k2 = k := fun e => hne e.symm
          simp [JsObj.get, List.find?, hq2, hne2]
        · have hb2 : (q.1 == k2) = false := by simpa using hq2
          simpa [JsObj.get, List.find?, hq, hb2] using ih
  · rw [if_neg hk]
    unfold JsObj.get
    rw [List.find?_append]
    cases hf : o.find? (fun p => p.1 == k2) with
    | some p => rfl
    | none => simp [List.find?, hb]

theorem mem_set (o : JsObj) (k : String) (v : JsVal) (q : String × JsVal)
    (hq : q ∈ JsObj.set o k v) : q = (k, v) ∨ (q ∈ o ∧ q.1 ≠ k) := by
  unfold JsObj.set at hq
  by_cases hk : JsObj.has o k = true
  · rw [if_pos hk] at hq
    obtain ⟨r, hr, hrq⟩ := List.mem_map.1 hq
    by_cases e : r.1 = k
    · left
      simpa [e] using hrq.symm
    · right
      have : q = r := by simpa [e] using hrq.symm
      subst this
      exact ⟨hr, e⟩
  · rw [if_neg hk] at hq
    rcases List.mem_append.1 hq with h | h
    · right
      refine ⟨h, fun e => hk ?_⟩
      simp only [JsObj.has, List.any_eq_true]
      exact ⟨q, h, by simp [e]⟩
    · left
      simpa using h

theorem get_mem (o : JsObj) (k : String) (hk : JsObj.has o k = true) :
    (k, JsObj.get o k) ∈ o := by
  induction o with
  | nil => simp [JsObj.has] at hk
  | cons q rest ih =>
    by_cases e : q.1 = k
    · have : JsObj.get (q :: rest) k = q.2 := by simp [JsObj.get, List.find?, e]
      rw [this, ← e]
      exact List.mem_cons_self _ _
    · have hb : (q.1 == k) = false := by simpa using e
      have hr : JsObj.has rest k = true := by simpa [JsObj.has, hb] using hk
      have : JsObj.get (q :: rest) k = JsObj.get rest k := by
        simp [JsObj.get, List.find?, hb]
      rw [this]
      exact List.mem_cons_of_mem _ (ih hr)

theorem get_of_not_has (o : JsObj) (k : String) (hk : JsObj.has o k = false) :
    JsObj.get o k = JsVal.undefined := by
  have hnone : o.find? (fun q => q.1 == k) = none := by
    simp only [List.find?_eq_none]
    intro q hq hqk
    have : JsObj.has o k = true := by
      simp only [JsObj.has, List.any_eq_true]
      exact ⟨q, hq, hqk⟩
    rw [hk] at this
    exact absurd this (by simp)
  simp [JsObj.get, hnone]

/-- The first entry under a key decides what the key reads. -/
theorem get_eq_of_forall (o : JsObj) (k : String) (v : JsVal)
    (hk : JsObj.has o k = true) (hall : ∀ q ∈ o, q.1 = k → q.2 = v) :
    JsObj.get o k = v := by
  have h := get_mem o k hk
  exact hall _ h rfl

end JsObj

/-! ## Properties of the JSON round trip and of the session -/

mutual
theorem JsVal.jsonClone_of_safe : ∀ v : JsVal, v.jsonSafe = true → v.jsonClone = v
  | JsVal.undefined, h => by simp [JsVal.jsonSafe] at h
  | JsVal.null, _ => by simp [JsVal.jsonClone]
  | JsVal.bool _, _ => by simp [JsVal.jsonClone]
  | JsVal.num _, _ => by simp [JsVal.jsonClone]
  | JsVal.str _, _ => by simp [JsVal.jsonClone]
  | JsVal.obj fields, h => by
    have hf : jsonSafeFields fields = true := by simpa [JsVal.jsonSafe] using h
    simp [JsVal.jsonClone, jsonCloneFields_of_safe fields hf]
theorem jsonCloneFields_of_safe :
    ∀ fs : List (String × JsVal), jsonSafeFields fs = true → jsonCloneFields fs = fs
  | [], _ => by simp [jsonCloneFields]
  | (k, v) :: rest, h => by
    have h2 : v.jsonSafe = true ∧ jsonSafeFields rest = true := by
      simpa [jsonSafeFields] using h
    have hv := JsVal.jsonClone_of_safe v h2.1
    have hr := jsonCloneFields_of_safe rest h2.2
    cases v with
    | undefined => simp [JsVal.jsonSafe] at h2
    | null => simp [jsonCloneFields, hr, JsVal.jsonClone]
    | bool b => simp [jsonCloneFields, hr, JsVal.jsonClone]
    | num n => simp [jsonCloneFields, hr, JsVal.jsonClone]
    | str t => simp [jsonCloneFields, hr, JsVal.jsonClone]
    | obj fields => simp [jsonCloneFields, hr, hv]
end

theorem jsonSafeFields_iff (fs : List (String × JsVal)) :
    jsonSafeFields fs = true ↔ ∀ q ∈ fs, q.2.jsonSafe = true := by
  induction fs with
  | nil => simp [jsonSafeFields]
  | cons q rest ih =>
    obtain ⟨k, v⟩ := q
    simp [jsonSafeFields, ih]

theorem Storage.getItem_append_setItem (st : Storage) (key : String) (v : JsVal) :
    Storage.getItem (st ++ [StorageOp.setItem key v]) key = some (JSON.stringify v) := by
  simp [Storage.getItem, List.foldl_append]

namespace Session

theorem mem_sync (X : JsObj) (L : JsObj) :
    ∀ (acc : JsObj) (q : String × JsVal),
      q ∈ L.foldl (fun acc p => JsObj.set acc p.1 (JsObj.get X p.1)) acc →
      (∃ p ∈ L, q = (p.1, JsObj.get X p.1)) ∨ (q ∈ acc ∧ ∀ p ∈ L, p.1 ≠ q.1) := by
  induction L with
  | nil =>
    intro acc q hq
    right
    exact ⟨by simpa using hq, by simp⟩
  | cons p rest ih =>
    intro acc q hq
    rw [List.foldl_cons] at hq
    rcases ih _ q hq with ⟨r, hr, hqr⟩ | ⟨hmem, hne⟩
    · left
      exact ⟨r, List.mem_cons_of_mem _ hr, hqr⟩
    · rcases JsObj.mem_set acc p.1 (JsObj.get X p.1) q hmem with h | ⟨h1, h2⟩
      · left
        exact ⟨p, List.mem_cons_self _ _, h⟩
      · right
        refine ⟨h1, ?_⟩
        intro r hr
        rcases List.mem_cons.1 hr with e | e
        · rw [e]
          exact fun h => h2 h.symm
        · exact hne r e

theorem has_sync (X : JsObj) (L : JsObj) :
    ∀ (acc : JsObj) (k : String),
      JsObj.has (L.foldl (fun acc p => JsObj.set acc p.1 (JsObj.get X p.1)) acc) k =
        (JsObj.has acc k || JsObj.has L k) := by
  induction L with
  | nil =>
    intro acc k
    simp [JsObj.has]
  | cons p rest ih =>
    intro acc k
    rw [List.foldl_cons, ih, JsObj.has_set]
    simp [JsObj.has, Bool.or_assoc]

theorem foldl_assign_eq (X : JsObj) (L : JsObj) (hL : ∀ p ∈ L, p.1 ≠ "__proto__") :
    ∀ acc : JsObj,
      L.foldl (fun acc p => JsObj.assign acc p.1 (JsObj.get X p.1)) acc =
        L.foldl (fun acc p => JsObj.set acc p.1 (JsObj.get X p.1)) acc := by
  induction L with
  | nil => intro acc; rfl
  | cons p rest ih =>
    intro acc
    have hp : (p.1 == "__proto__") = false := by
      simpa using hL p (List.mem_cons_self _ _)
    rw [List.foldl_cons, List.foldl_cons, ih (fun q hq => hL q (List.mem_cons_of_mem _ hq))]
    simp [JsObj.assign, hp]

theorem not_mem_of_not_has (X : JsObj) (k : String) (h : JsObj.has X k = false) :
    ∀ p ∈ X, p.1 ≠ k := by
  intro p hp e
  have : JsObj.has X k = true := by
    simp only [JsObj.has, List.any_eq_true]
    exact ⟨p, hp, by simp [e]⟩
  rw [h] at this
  exact absurd this (by simp)

/-- The private store after the setter of `store`, for an argument without own property
`__proto__` and a store none of whose keys is an inherited name: the argument written
over the keys of the store that the argument has. -/
theorem set_store_eq (s : Session) (st : Storage) (X : JsObj)
    (hProto : JsObj.has X "__proto__" = false)
    (hS : ∀ q ∈ s.store, JsObj.inherits q.1 = false) :
    (s.set_store st X).1.store =
      X.foldl (fun acc p => JsObj.set acc p.1 (JsObj.get X p.1))
        (s.store.filter (fun p => JsObj.has X p.1)) := by
  show X.foldl (fun acc p => JsObj.assign acc p.1 (JsObj.get X p.1))
      (s.store.filter (fun p => JsObj.hasIn X p.1)) = _
  rw [foldl_assign_eq X X (not_mem_of_not_has X "__proto__" hProto)]
  congr 1
  apply List.filter_congr
  intro q hq
  simp [JsObj.hasIn, hS q hq]

/-- What the setter of `store` leaves in the private store, under the same conditions:
the keys of the argument, each entry holding the value the argument reads under its
key. -/
theorem set_store_store (s : Session) (st : Storage) (X : JsObj)
    (hProto : JsObj.has X "__proto__" = false)
    (hS : ∀ q ∈ s.store, JsObj.inherits q.1 = false) :
    (∀ k, JsObj.has (s.set_store st X).1.store k = JsObj.has X k) ∧
    (∀ q ∈ (s.set_store st X).1.store,
      JsObj.has X q.1 = true ∧ q.2 = JsObj.get X q.1) := by
  rw [set_store_eq s st X hProto hS]
  refine ⟨?_, ?_⟩
  · intro k
    rw [has_sync]
    cases hX : JsObj.has X k
    · simp only [Bool.or_false]
      cases hk : JsObj.has (s.store.filter (fun p => JsObj.has X p.1)) k
      · rfl
      · simp only [JsObj.has, List.any_eq_true] at hk
        obtain ⟨q, hq, hqk⟩ := hk
        have hq2 := (List.mem_filter.1 hq).2
        have e : q.1 = k := by simpa using hqk
        rw [e] at hq2
        exact hq2.symm.trans hX
    · simp
  · intro q hq
    rcases mem_sync X X _ q hq with ⟨p, hp, hqp⟩ | ⟨hmem, hne⟩
    · subst hqp
      refine ⟨?_, rfl⟩
      simp only [JsObj.has, List.any_eq_true]
      exact ⟨p, hp, by simp⟩
    · have hq3 := (List.mem_filter.1 hmem).2
      simp only [JsObj.has, List.any_eq_true] at hq3
      obtain ⟨r, hr, hrq⟩ := hq3
      exact absurd (by simpa using hrq) (hne r hr)

end Session

/-! ## Frame lemmas -/

namespace AuthenticationClient

theorem onReady_timers (c : AuthenticationClient) :
    c._onReady.timers = c.timers ++ c.readyEvents := by
  rcases c with ⟨sess, pe, cr, em, cf, ini, rdy, tm, st, rg, bd, nw⟩
  cases rdy <;> cases h1 : em.truthy <;> simp [_onReady, readyEvents, schedule, h1]

theorem onDeauth_timers (c : AuthenticationClient) (err : JsVal) :
    (c._onDeauth err).timers = c.timers ++ c.readyEvents ++
      (if c._initialized || !c.confirmedAuthEventsOnly.truthy
        then [Event.deauthenticated err] else []) := by
  rcases c with ⟨sess, pe, cr, em, cf, ini, rdy, tm, st, rg, bd, nw⟩
  cases sess <;> cases rdy <;> cases ini <;> cases h1 : em.truthy <;>
    cases h2 : cf.truthy <;> simp [_onDeauth, _onReady, readyEvents, schedule, h1, h2]

theorem onAuth_timers (c : AuthenticationClient) :
    c._onAuth.timers = c.timers ++ c.readyEvents ++
      (if c._initialized || !c.confirmedAuthEventsOnly.truthy
        then [Event.authenticated] else []) := by
  rcases c with ⟨sess, pe, cr, em, cf, ini, rdy, tm, st, rg, bd, nw⟩
  cases sess <;> cases rdy <;> cases ini <;> cases h1 : em.truthy <;>
    cases h2 : cf.truthy <;>
    simp [_onAuth, _onReady, readyEvents, schedule, _persistTokensToSession, h1, h2]

theorem onDeauth_fields (c : AuthenticationClient) (err : JsVal) :
    (c._onDeauth err)._initialized = c._initialized ∧ (c._onDeauth err)._ready = true ∧
    (c._onDeauth err).confirmedAuthEventsOnly = c.confirmedAuthEventsOnly ∧
    (c._onDeauth err).emitReadyEvent = c.emitReadyEvent ∧
    (c._onDeauth err).credentials = c.credentials ∧
    (c._onDeauth err).providerEndpoint = c.providerEndpoint := by
  rcases c with ⟨sess, pe, cr, em, cf, ini, rdy, tm, st, rg, bd, nw⟩
  cases sess <;> cases rdy <;> cases ini <;> cases h1 : em.truthy <;>
    cases h2 : cf.truthy <;> simp [_onDeauth, _onReady, schedule, h1, h2]

theorem onAuth_fields (c : AuthenticationClient) :
    c._onAuth._initialized = c._initialized ∧ c._onAuth._ready = true ∧
    c._onAuth.confirmedAuthEventsOnly = c.confirmedAuthEventsOnly ∧
    c._onAuth.emitReadyEvent = c.emitReadyEvent ∧
    c._onAuth.credentials = c.credentials ∧
    c._onAuth.providerEndpoint = c.providerEndpoint := by
  rcases c with ⟨sess, pe, cr, em, cf, ini, rdy, tm, st, rg, bd, nw⟩
  cases sess <;> cases rdy <;> cases ini <;> cases h1 : em.truthy <;>
    cases h2 : cf.truthy <;>
    simp [_onAuth, _onReady, schedule, _persistTokensToSession, h1, h2]

theorem authHandler_timers (c : AuthenticationClient) (err : JsVal) :
    (c._authHandler err).timers = c.timers ++ c.readyEvents ++
      (if c._initialized || !c.confirmedAuthEventsOnly.truthy
        then [if err.truthy then Event.deauthenticated err else Event.authenticated]
        else []) := by
  unfold _authHandler
  cases h : err.truthy <;> simp [onDeauth_timers, onAuth_timers]

theorem authHandler_fields (c : AuthenticationClient) (err : JsVal) :
    (c._authHandler err)._initialized = c._initialized ∧ (c._authHandler err)._ready = true ∧
    (c._authHandler err).confirmedAuthEventsOnly = c.confirmedAuthEventsOnly ∧
    (c._authHandler err).emitReadyEvent = c.emitReadyEvent ∧
    (c._authHandler err).credentials = c.credentials ∧
    (c._authHandler err).providerEndpoint = c.providerEndpoint := by
  unfold _authHandler
  cases h : err.truthy
  · simpa using onAuth_fields c
  · simpa using onDeauth_fields c err

theorem readyEvents_count (p : Event → Bool) (hp : p Event.ready = false)
    (c : AuthenticationClient) : c.readyEvents.countP p = 0 := by
  unfold readyEvents
  split <;> simp [hp]

theorem getAuthToken_congr (c d : AuthenticationClient)
    (h1 : d.credentials.Logins = c.credentials.Logins)
    (h2 : d.providerEndpoint = c.providerEndpoint) : d.getAuthToken = c.getAuthToken := by
  simp [getAuthToken, h1, h2]

theorem brokerStores_fields (writes : List (String × JsVal)) (c : AuthenticationClient) :
    (c.brokerStores writes).timers = c.timers ∧
    (c.brokerStores writes)._initialized = c._initialized ∧
    (c.brokerStores writes)._ready = c._ready ∧
    (c.brokerStores writes).confirmedAuthEventsOnly = c.confirmedAuthEventsOnly ∧
    (c.brokerStores writes).emitReadyEvent = c.emitReadyEvent ∧
    (c.brokerStores writes).credentials.Logins = c.credentials.Logins ∧
    (c.brokerStores writes).providerEndpoint = c.providerEndpoint ∧
    (c.brokerStores writes).credentials.calls = c.credentials.calls := by
  induction writes generalizing c with
  | nil => simp [brokerStores]
  | cons w rest ih =>
    have h := ih (c.setCredentialProp w.1 w.2)
    simpa [brokerStores, setCredentialProp] using h

theorem init_token_timers (c : AuthenticationClient) (hTok : c.getAuthToken.truthy = true) :
    c.init.timers = c.timers ++
      (if c.resumesCachedSession
        then c.readyEvents ++ (if c.eventGate then [Event.authenticated] else [])
        else []) := by
  unfold init resumesCachedSession eventGate
  rw [if_pos hTok]
  cases hs : c.session with
  | none => simp [brokerCall]
  | some s =>
    cases hv : validateAwsCredentials s.aws
    · simp [brokerCall, hv]
    · simp [brokerCall, onAuth_timers, setCredentialProp, readyEvents, hv]

theorem init_token_fields (c : AuthenticationClient) (hTok : c.getAuthToken.truthy = true) :
    c.init._initialized = c._initialized ∧
    c.init._ready = (c._ready || c.resumesCachedSession) ∧
    c.init.confirmedAuthEventsOnly = c.confirmedAuthEventsOnly ∧
    c.init.emitReadyEvent = c.emitReadyEvent ∧
    c.init.credentials.Logins = c.credentials.Logins ∧
    c.init.providerEndpoint = c.providerEndpoint ∧
    c.init.credentials.calls = c.credentials.calls ++ [BrokerCall.get Callback.initGet] := by
  unfold init resumesCachedSession
  rw [if_pos hTok]
  cases hs : c.session with
  | none => simp [brokerCall]
  | some s =>
    cases hv : validateAwsCredentials s.aws
    · simp [brokerCall, hv]
    · have h := onAuth_fields (((c.setCredentialProp "accessKeyId"
        (JsObj.get s.aws "accessKeyId")).setCredentialProp "secretAccessKey"
        (JsObj.get s.aws "secretAccessKey")).setCredentialProp "sessionToken"
        (JsObj.get s.aws "sessionToken"))
      obtain ⟨h1, h2, h3, h4, h5, h6⟩ := h
      simp only [hv, if_true, brokerCall, h1, h2, h3, h4, h5, h6]
      simp [setCredentialProp]

theorem initGetCallback_timers (c : AuthenticationClient) (err : JsVal) :
    (c.initGetCallback err).timers = c.timers ++ c.readyEvents ++
      [if err.truthy then Event.deauthenticated err else Event.authenticated] := by
  unfold initGetCallback
  rw [authHandler_timers]
  simp [readyEvents]

theorem initGetCallback_fields (c : AuthenticationClient) (err : JsVal) :
    (c.initGetCallback err)._initialized = true ∧ (c.initGetCallback err)._ready = true ∧
    (c.initGetCallback err).confirmedAuthEventsOnly = c.confirmedAuthEventsOnly ∧
    (c.initGetCallback err).emitReadyEvent = c.emitReadyEvent ∧
    (c.initGetCallback err).credentials = c.credentials ∧
    (c.initGetCallback err).providerEndpoint = c.providerEndpoint := by
  unfold initGetCallback
  simpa using authHandler_fields ({ c with _initialized := true }) err

theorem sample_constructions :
    new sampleAmbient [] (some scenarioConfig) = Except.ok scenarioClient ∧
    new sampleAmbient [] (some cachedConfig) = Except.ok cachedClient ∧
    new sampleAmbient [] (some tokenlessConfig) = Except.ok tokenlessClient ∧
    new sampleAmbient [] (some strictConfig) = Except.ok strictClient :=
  ⟨rfl, rfl, rfl, rfl⟩

theorem brokerStores_validate (writes : List (String × JsVal)) (c : AuthenticationClient)
    (h : validateAwsCredentials c.credentials.props = true) :
    validateAwsCredentials (c.brokerStores writes).credentials.props = true := by
  induction writes generalizing c with
  | nil => simpa [brokerStores] using h
  | cons w rest ih =>
    have h2 : validateAwsCredentials (c.setCredentialProp w.1 w.2).credentials.props = true := by
      simp only [validateAwsCredentials, Bool.and_eq_true] at h ⊢
      simp [setCredentialProp, JsObj.has_set, h.1.1, h.1.2, h.2]
    simpa [brokerStores] using ih _ h2

theorem init_resumes_validate (c : AuthenticationClient)
    (hTok : c.getAuthToken.truthy = true) (hRes : c.resumesCachedSession = true) :
    validateAwsCredentials c.init.credentials.props = true := by
  unfold init
  rw [if_pos hTok]
  unfold resumesCachedSession at hRes
  cases hs : c.session with
  | none => simp [hs] at hRes
  | some s =>
    have hv : validateAwsCredentials s.aws = true := by simpa [hs] using hRes
    have h := (onAuth_fields (((c.setCredentialProp "accessKeyId"
        (JsObj.get s.aws "accessKeyId")).setCredentialProp "secretAccessKey"
        (JsObj.get s.aws "secretAccessKey")).setCredentialProp "sessionToken"
        (JsObj.get s.aws "sessionToken"))).2.2.2.2.1
    simp only [hv, if_true, brokerCall, h]
    simp [setCredentialProp, validateAwsCredentials, JsObj.has_set]

theorem init_fetch_token (c : AuthenticationClient) (writes : List (String × JsVal))
    (err : JsVal) (hTok : c.getAuthToken.truthy = true) :
    ((c.init.brokerStores writes).initGetCallback err).getAuthToken = c.getAuthToken := by
  have h1 := initGetCallback_fields (c.init.brokerStores writes) err
  have h2 := brokerStores_fields writes c.init
  have h3 := init_token_fields c hTok
  apply getAuthToken_congr
  · rw [h1.2.2.2.2.1, h2.2.2.2.2.2.1, h3.2.2.2.2.1]
  · rw [h1.2.2.2.2.2, h2.2.2.2.2.2.2.1, h3.2.2.2.2.2.1]

theorem init_fetch_timers (c : AuthenticationClient) (writes : List (String × JsVal))
    (err : JsVal) (hTok : c.getAuthToken.truthy = true) :
    ((c.init.brokerStores writes).initGetCallback err).timers =
      c.timers ++
      ((if c.resumesCachedSession
        then c.readyEvents ++ (if c.eventGate then [Event.authenticated] else [])
        else []) ++ (c.init.brokerStores writes).readyEvents) ++
      [if err.truthy then Event.deauthenticated err else Event.authenticated] := by
  rw [initGetCallback_timers, (brokerStores_fields writes c.init).1, init_token_timers c hTok]
  simp

theorem init_no_token (c : AuthenticationClient) (hTok : c.getAuthToken.truthy = false) :
    c.init = ({ c with _initialized := true })._onDeauth JsVal.undefined := by
  simp [init, hTok]

theorem or_false_truthy (v : JsVal) : (v.or (JsVal.bool false)).truthy = v.truthy := by
  unfold JsVal.or
  by_cases h : v.truthy = true
  · rw [if_pos h]
  · rw [if_neg h]
    simp only [Bool.not_eq_true] at h
    rw [h]
    rfl

theorem new_ok_fields (amb : Ambient) (props : JsObj) (config : Option Config)
    (c : AuthenticationClient) (h : new amb props config = Except.ok c) :
    ∃ cfg : Config, config = some cfg ∧ c.timers = [] ∧ c._ready = false ∧
      c._initialized = false ∧ c.emitReadyEvent.truthy = cfg.emitReadyEvent.truthy ∧
      c.confirmedAuthEventsOnly.truthy = cfg.confirmedAuthEventsOnly.truthy ∧
      c.session = sessionOrNull cfg.session := by
  unfold new at h
  cases config with
  | none => simp at h
  | some cfg =>
    refine ⟨cfg, rfl, ?_⟩
    simp only at h
    split at h
    · simp at h
    · split at h
      · simp at h
      · split at h
        · simp at h
        · split at h
          · simp only [Except.ok.injEq] at h
            subst h
            simp [or_false_truthy]
          · simp at h

/-- What one step does to the latches, the flags and the timers: `ran` tells whether a
transition ran, `evs` are the events scheduled after the `ready` event. -/
theorem step_summary (c : AuthenticationClient) (op : Op) :
    ∃ (ran : Bool) (evs : List Event),
      (c.step op).confirmedAuthEventsOnly = c.confirmedAuthEventsOnly ∧
      (c.step op).emitReadyEvent = c.emitReadyEvent ∧
      (c._initialized = true → (c.step op)._initialized = true) ∧
      (c.step op)._ready = (c._ready || ran) ∧
      (c.step op).timers = c.timers ++ (if ran then c.readyEvents else []) ++ evs ∧
      (evs = [] ∨
        (((c.step op)._initialized || !c.confirmedAuthEventsOnly.truthy) = true ∧
          (evs = [Event.authenticated] ∨ ∃ e, evs = [Event.deauthenticated e]))) := by
  have hAuth : ∀ d : AuthenticationClient, ∃ (ran : Bool) (evs : List Event),
      d._onAuth.confirmedAuthEventsOnly = d.confirmedAuthEventsOnly ∧
      d._onAuth.emitReadyEvent = d.emitReadyEvent ∧
      (d._initialized = true → d._onAuth._initialized = true) ∧
      d._onAuth._ready = (d._ready || ran) ∧
      d._onAuth.timers = d.timers ++ (if ran then d.readyEvents else []) ++ evs ∧
      (evs = [] ∨
        ((d._onAuth._initialized || !d.confirmedAuthEventsOnly.truthy) = true ∧
          (evs = [Event.authenticated] ∨ ∃ e, evs = [Event.deauthenticated e]))) := by
    intro d
    obtain ⟨h1, h2, h3, h4, -, -⟩ := onAuth_fields d
    refine ⟨true, if d._initialized || !d.confirmedAuthEventsOnly.truthy
      then [Event.authenticated] else [], h3, h4, fun h => by rw [h1, h], by simp [h2],
      by simpa using onAuth_timers d, ?_⟩
    rw [h1]
    cases hg : (d._initialized || !d.confirmedAuthEventsOnly.truthy) <;> simp
  have hDeauth : ∀ (d : AuthenticationClient) (err : JsVal),
      ∃ (ran : Bool) (evs : List Event),
      (d._onDeauth err).confirmedAuthEventsOnly = d.confirmedAuthEventsOnly ∧
      (d._onDeauth err).emitReadyEvent = d.emitReadyEvent ∧
      (d._initialized = true → (d._onDeauth err)._initialized = true) ∧
      (d._onDeauth err)._ready = (d._ready || ran) ∧
      (d._onDeauth err).timers = d.timers ++ (if ran then d.readyEvents else []) ++ evs ∧
      (evs = [] ∨
        (((d._onDeauth err)._initialized || !d.confirmedAuthEventsOnly.truthy) = true ∧
          (evs = [Event.authenticated] ∨ ∃ e, evs = [Event.deauthenticated e]))) := by
    intro d err
    obtain ⟨h1, h2, h3, h4, -, -⟩ := onDeauth_fields d err
    refine ⟨true, if d._initialized || !d.confirmedAuthEventsOnly.truthy
      then [Event.deauthenticated err] else [], h3, h4, fun h => by rw [h1, h], by simp [h2],
      by simpa using onDeauth_timers d err, ?_⟩
    rw [h1]
    cases hg : (d._initialized || !d.confirmedAuthEventsOnly.truthy) <;> simp
  have hHandler : ∀ (d : AuthenticationClient) (err : JsVal),
      ∃ (ran : Bool) (evs : List Event),
      (d._authHandler err).confirmedAuthEventsOnly = d.confirmedAuthEventsOnly ∧
      (d._authHandler err).emitReadyEvent = d.emitReadyEvent ∧
      (d._initialized = true → (d._authHandler err)._initialized = true) ∧
      (d._authHandler err)._ready = (d._ready || ran) ∧
      (d._authHandler err).timers = d.timers ++ (if ran then d.readyEvents else []) ++ evs ∧
      (evs = [] ∨
        (((d._authHandler err)._initialized || !d.confirmedAuthEventsOnly.truthy) = true ∧
          (evs = [Event.authenticated] ∨ ∃ e, evs = [Event.deauthenticated e]))) := by
    intro d err
    unfold _authHandler
    cases err.truthy
    · simpa using hAuth d
    · simpa using hDeauth d err
  have hQuiet : ∀ d : AuthenticationClient,
      d.confirmedAuthEventsOnly = c.confirmedAuthEventsOnly →
      d.emitReadyEvent = c.emitReadyEvent → d._initialized = c._initialized →
      d._ready = c._ready → d.timers = c.timers →
      ∃ (ran : Bool) (evs : List Event),
      d.confirmedAuthEventsOnly = c.confirmedAuthEventsOnly ∧
      d.emitReadyEvent = c.emitReadyEvent ∧
      (c._initialized = true → d._initialized = true) ∧
      d._ready = (c._ready || ran) ∧
      d.timers = c.timers ++ (if ran then c.readyEvents else []) ++ evs ∧
      (evs = [] ∨
        ((d._initialized || !c.confirmedAuthEventsOnly.truthy) = true ∧
          (evs = [Event.authenticated] ∨ ∃ e, evs = [Event.deauthenticated e]))) := by
    intro d h1 h2 h3 h4 h5
    exact ⟨false, [], h1, h2, fun h => by rw [h3, h], by simp [h4], by simp [h5], Or.inl rfl⟩
  cases op with
  | init =>
    simp only [step]
    cases hTok : c.getAuthToken.truthy
    · rw [init_no_token c hTok]
      obtain ⟨ran, evs, h1, h2, -, h4, h5, h6⟩ :=
        hDeauth ({ c with _initialized := true }) JsVal.undefined
      exact ⟨ran, evs, h1, h2, fun _ => (onDeauth_fields _ _).1, h4, h5, h6⟩
    · obtain ⟨f1, f2, f3, f4, -, -, -⟩ := init_token_fields c hTok
      have ht := init_token_timers c hTok
      refine ⟨c.resumesCachedSession,
        if c.resumesCachedSession then (if c.eventGate then [Event.authenticated] else [])
        else [], f3, f4, fun h => by rw [f1, h], f2, ?_, ?_⟩
      · rw [ht]
        cases c.resumesCachedSession <;> simp
      · rw [f1]
        cases c.resumesCachedSession
        · simp
        · cases hg : c.eventGate
          · simp
          · right
            simp only [eventGate] at hg
            simp [hg]
  | open_ t => exact hQuiet _ rfl rfl rfl rfl rfl
  | close => exact hQuiet _ rfl rfl rfl rfl rfl
  | setAuthToken t => exact hQuiet _ rfl rfl rfl rfl rfl
  | callback cb err =>
    cases cb with
    | initGet =>
      simp only [step, runCallback, initGetCallback]
      obtain ⟨ran, evs, h1, h2, h3, h4, h5, h6⟩ := hHandler ({ c with _initialized := true }) err
      exact ⟨ran, evs, h1, h2, fun _ => h3 rfl, h4, h5, h6⟩
    | authHandler => exact hHandler c err
  | onAuth => exact hAuth c
  | onDeauth err => exact hDeauth c err
  | authHandler err => exact hHandler c err
  | brokerWrites k v => exact hQuiet _ rfl rfl rfl rfl rfl

theorem run_cons (c : AuthenticationClient) (op : Op) (ops : List Op) :
    c.run (op :: ops) = (c.step op).run ops := rfl

theorem run_gate_invariant (ops : List Op) (c : AuthenticationClient)
    (hFlag : c.confirmedAuthEventsOnly.truthy = true)
    (hInv : c._initialized = false →
      c.timers.countP Event.isAuthenticated = 0 ∧
      c.timers.countP Event.isDeauthenticated = 0) :
    (c.run ops).confirmedAuthEventsOnly = c.confirmedAuthEventsOnly ∧
    ((c.run ops)._initialized = false →
      (c.run ops).timers.countP Event.isAuthenticated = 0 ∧
      (c.run ops).timers.countP Event.isDeauthenticated = 0) := by
  induction ops generalizing c with
  | nil => exact ⟨rfl, hInv⟩
  | cons op rest ih =>
    obtain ⟨ran, evs, h1, -, h3, -, h5, h6⟩ := step_summary c op
    have hFlag2 : (c.step op).confirmedAuthEventsOnly.truthy = true := by rw [h1, hFlag]
    have hInv2 : (c.step op)._initialized = false →
        (c.step op).timers.countP Event.isAuthenticated = 0 ∧
        (c.step op).timers.countP Event.isDeauthenticated = 0 := by
      intro hi
      have hci : c._initialized = false := by
        cases hc : c._initialized
        · rfl
        · rw [h3 hc] at hi
          exact absurd hi (by simp)
      have hevs : evs = [] := by
        rcases h6 with h | ⟨hg, -⟩
        · exact h
        · simp [hi, hFlag] at hg
      obtain ⟨ha, hd⟩ := hInv hci
      rw [h5, hevs]
      cases ran <;>
        simp [ha, hd, readyEvents_count, Event.isAuthenticated, Event.isDeauthenticated]
    obtain ⟨r1, r2⟩ := ih (c.step op) hFlag2 hInv2
    rw [run_cons]
    exact ⟨r1.trans h1, r2⟩

theorem run_ready_invariant (ops : List Op) (c : AuthenticationClient)
    (hInv : c.timers.countP Event.isReady =
      if c._ready && c.emitReadyEvent.truthy then 1 else 0) :
    (c.run ops).emitReadyEvent = c.emitReadyEvent ∧
    (c.run ops).timers.countP Event.isReady =
      if (c.run ops)._ready && c.emitReadyEvent.truthy then 1 else 0 := by
  induction ops generalizing c with
  | nil => exact ⟨rfl, hInv⟩
  | cons op rest ih =>
    obtain ⟨ran, evs, -, h2, -, h4, h5, h6⟩ := step_summary c op
    have hevs : evs.countP Event.isReady = 0 := by
      rcases h6 with h | ⟨-, h | ⟨e, h⟩⟩ <;> simp [h, Event.isReady]
    have hInv2 : (c.step op).timers.countP Event.isReady =
        if (c.step op)._ready && (c.step op).emitReadyEvent.truthy then 1 else 0 := by
      rw [h5, h4, h2, List.countP_append, List.countP_append, hevs, hInv]
      unfold readyEvents
      cases ran <;> cases c._ready <;> cases c.emitReadyEvent.truthy <;>
        simp [Event.isReady]
    obtain ⟨r1, r2⟩ := ih (c.step op) hInv2
    rw [run_cons]
    refine ⟨r1.trans h2, ?_⟩
    rw [r2, h2]

theorem open_getAuthToken (c : AuthenticationClient) (t : JsVal) :
    (c.open_ t).getAuthToken = t := by
  simp [open_, brokerCall, setAuthToken, getAuthToken, JsObj.get_set_same]

theorem close_getAuthToken (c : AuthenticationClient) :
    c.close.getAuthToken = JsVal.null := by
  simp [close, brokerCall, setAuthToken, getAuthToken, JsObj.get_set_same]

theorem authHandler_getAuthToken (c : AuthenticationClient) (err : JsVal) :
    (c._authHandler err).getAuthToken = c.getAuthToken := by
  obtain ⟨-, -, -, -, h5, h6⟩ := authHandler_fields c err
  exact getAuthToken_congr _ _ (by rw [h5]) h6

/-! ## Lemmas on construction, the region and the storage -/

theorem new_ok_eq (amb : Ambient) (props : JsObj) (cfg : Config)
    (c : AuthenticationClient) (h : new amb props (some cfg) = Except.ok c) :
    ∃ poolId : String, cfg.identityPoolId = JsVal.str poolId ∧
      c = { session := sessionOrNull cfg.session
            providerEndpoint := cfg.providerEndpoint
            credentials :=
              { IdentityPoolId := cfg.identityPoolId
                RoleArn := cfg.authRoleArn
                Logins := JsObj.set [] cfg.providerEndpoint.toPropertyKey
                  (cfg.existingAuthToken.or JsVal.null)
                props := props
                calls := [] }
            emitReadyEvent := cfg.emitReadyEvent.or (JsVal.bool false)
            confirmedAuthEventsOnly := cfg.confirmedAuthEventsOnly.or (JsVal.bool false)
            _initialized := false
            _ready := false
            timers := []
            storage := amb.storage
            awsRegion := JsVal.str (regionOf poolId)
            awsCredentialsBound := true
            now := amb.now } := by
  unfold new at h
  simp only at h
  split at h
  · simp at h
  · split at h
    · simp at h
    · split at h
      · simp at h
      · split at h
        · rename_i poolId hp
          simp only [Except.ok.injEq] at h
          exact ⟨poolId, hp, by rw [← h, hp]⟩
        · simp at h

theorem returns_new_existingAuthToken (amb : Ambient) (props : JsObj) (cfg : Config)
    (t : JsVal) :
    returns (new amb props (some { cfg with existingAuthToken := t })) =
      returns (new amb props (some cfg)) := by
  unfold new
  dsimp only
  cases h1 : cfg.identityPoolId.truthy <;> cases h2 : cfg.authRoleArn.truthy <;>
    cases h3 : cfg.providerEndpoint.truthy <;> cases h4 : sessionArgTruthy cfg.session <;>
    cases h5 : instanceofSession cfg.session <;> simp [returns] <;>
    cases h6 : cfg.identityPoolId <;> simp [returns]

theorem returns_new (amb : Ambient) (props : JsObj) (cfg : Config) :
    returns (new amb props (some cfg)) =
      (cfg.identityPoolId.truthy && cfg.authRoleArn.truthy && cfg.providerEndpoint.truthy &&
        cfg.identityPoolId.isString &&
        (!sessionArgTruthy cfg.session || instanceofSession cfg.session)) := by
  unfold new
  dsimp only
  cases h1 : cfg.identityPoolId.truthy <;> cases h2 : cfg.authRoleArn.truthy <;>
    cases h3 : cfg.providerEndpoint.truthy <;> cases h4 : sessionArgTruthy cfg.session <;>
    cases h5 : instanceofSession cfg.session <;> simp [returns] <;>
    cases h6 : cfg.identityPoolId <;> simp [returns, JsVal.isString]

theorem getAuthToken_new (amb : Ambient) (props : JsObj) (cfg : Config)
    (c : AuthenticationClient) (h : new amb props (some cfg) = Except.ok c) :
    c.getAuthToken = cfg.existingAuthToken.or JsVal.null ∧
    c.session = sessionOrNull cfg.session ∧ c.storage = amb.storage ∧
    c.credentials.calls = [] ∧ c.timers = [] ∧ c._initialized = false ∧
    c._ready = false := by
  obtain ⟨poolId, -, hc⟩ := new_ok_eq amb props cfg c h
  subst hc
  refine ⟨?_, rfl, rfl, rfl, rfl, rfl, rfl⟩
  simp [getAuthToken, JsObj.get_set_same]

theorem returns_eq_true {ε α : Type} (r : Except ε α) (h : returns r = true) :
    ∃ a, r = Except.ok a := by
  cases r with
  | ok a => exact ⟨a, rfl⟩
  | error e => simp [returns] at h

theorem regionOf_split (p : String) :
    ∃ rest : List Char, p.data = (regionOf p).data ++ rest ∧
      (rest = [] ∨ rest.head? = some ':') ∧ ':' ∉ (regionOf p).data := by
  have key : ∀ l : List Char, ∃ rest : List Char,
      l = l.takeWhile (fun ch => ch != ':') ++ rest ∧
      (rest = [] ∨ rest.head? = some ':') ∧
      ':' ∉ l.takeWhile (fun ch => ch != ':') := by
    intro l
    induction l with
    | nil => exact ⟨[], by simp⟩
    | cons a l ih =>
      by_cases ha : a = ':'
      · subst ha
        exact ⟨':' :: l, by simp [List.takeWhile]⟩
      · obtain ⟨rest, h1, h2, h3⟩ := ih
        have hb : (a != ':') = true := by simpa using ha
        refine ⟨rest, ?_, h2, ?_⟩
        · rw [List.takeWhile_cons, if_pos hb, List.cons_append, ← h1]
        · rw [List.takeWhile_cons, if_pos hb]
          intro hm
          rcases List.mem_cons.1 hm with e | e
          · exact ha e.symm
          · exact h3 e
  exact key p.data

theorem getItem_untouched (st : Storage) (key : String)
    (h : ∀ op ∈ st, op.key ≠ key) : Storage.getItem st key = none := by
  have gen : ∀ (l : Storage) (cur : Option StoredText), (∀ op ∈ l, op.key ≠ key) →
      l.foldl (fun cur op =>
        match op with
        | StorageOp.setItem k v => if k == key then some (JSON.stringify v) else cur
        | StorageOp.removeItem k => if k == key then none else cur
        | StorageOp.setText k t => if k == key then some t else cur) cur = cur := by
    intro l
    induction l with
    | nil => intro cur _; rfl
    | cons op rest ih =>
      intro cur hl
      have hop := hl op (List.mem_cons_self _ _)
      have hrest : ∀ o ∈ rest, o.key ≠ key := fun o ho => hl o (List.mem_cons_of_mem _ ho)
      rw [List.foldl_cons]
      cases op with
      | setItem k v =>
        have : (k == key) = false := by simpa [StorageOp.key] using hop
        simpa [this] using ih cur hrest
      | removeItem k =>
        have : (k == key) = false := by simpa [StorageOp.key] using hop
        simpa [this] using ih cur hrest
      | setText k t =>
        have : (k == key) = false := by simpa [StorageOp.key] using hop
        simpa [this] using ih cur hrest
  exact gen st none h

theorem readItem_cases (item : Option StoredText) :
    (webFactory.readItem item = JsVal.null ∧
      ∀ t : String, t ≠ "" → item ≠ some (StoredText.json (JsVal.str t))) ∨
    ∃ t : String, t ≠ "" ∧ item = some (StoredText.json (JsVal.str t)) ∧
      webFactory.readItem item = JsVal.str t := by
  cases item with
  | none => left; exact ⟨rfl, by simp⟩
  | some text =>
    cases text with
    | empty => left; exact ⟨rfl, by simp⟩
    | malformed => left; exact ⟨rfl, by simp⟩
    | jsonOther => left; exact ⟨rfl, by simp⟩
    | json v =>
      cases v with
      | undefined => left; exact ⟨rfl, by simp⟩
      | null => left; exact ⟨rfl, by simp⟩
      | bool b => left; exact ⟨by cases b <;> rfl, by simp⟩
      | obj fields => left; exact ⟨rfl, by simp⟩
      | num n =>
        left
        refine ⟨?_, by simp⟩
        by_cases h : n = 0
        · subst h; rfl
        · simp [webFactory.readItem, JSON.parse, Parsed.orNull, JsVal.truthy, h]
      | str t =>
        by_cases h : t = ""
        · subst h
          left
          refine ⟨rfl, ?_⟩
          intro t ht e
          simp only [Option.some.injEq, StoredText.json.injEq, JsVal.str.injEq] at e
          exact ht e.symm
        · right
          refine ⟨t, h, rfl, ?_⟩
          simp [webFactory.readItem, JSON.parse, Parsed.orNull, JsVal.truthy, h]

theorem readItem_or_null (item : Option StoredText) :
    (webFactory.readItem item).or JsVal.null = webFactory.readItem item := by
  rcases readItem_cases item with ⟨h, -⟩ | ⟨t, ht, -, h⟩
  · rw [h]
    rfl
  · rw [h]
    simp [JsVal.or, JsVal.truthy, ht]

theorem run_latches (ops : List Op) (c : AuthenticationClient) :
    (c._initialized = true → (c.run ops)._initialized = true) ∧
    (c._ready = true → (c.run ops)._ready = true) := by
  induction ops generalizing c with
  | nil => exact ⟨id, id⟩
  | cons op rest ih =>
    obtain ⟨ran, evs, -, -, h3, h4, -, -⟩ := step_summary c op
    obtain ⟨r1, r2⟩ := ih (c.step op)
    rw [run_cons]
    refine ⟨fun h => r1 (h3 h), fun h => r2 ?_⟩
    rw [h4, h]
    rfl

theorem init_validate (c : AuthenticationClient)
    (h : validateAwsCredentials c.credentials.props = true) :
    validateAwsCredentials c.init.credentials.props = true := by
  cases hTok : c.getAuthToken.truthy
  · rw [init_no_token c hTok, (onDeauth_fields _ _).2.2.2.2.1]
    exact h
  · cases hRes : c.resumesCachedSession
    · have heq : c.init = c.brokerCall (BrokerCall.get Callback.initGet) := by
        unfold init
        rw [if_pos hTok]
        unfold resumesCachedSession at hRes
        cases hs : c.session with
        | none => rfl
        | some s =>
          have hv : validateAwsCredentials s.aws = false := by simpa [hs] using hRes
          simp only [hv]
          rfl
      rw [heq]
      exact h
    · exact init_resumes_validate c hTok hRes

theorem step_validate (c : AuthenticationClient) (op : Op)
    (h : validateAwsCredentials c.credentials.props = true) :
    validateAwsCredentials (c.step op).credentials.props = true := by
  cases op with
  | init => exact init_validate c h
  | open_ t => exact h
  | close => exact h
  | setAuthToken t => exact h
  | callback cb err =>
    cases cb with
    | initGet =>
      show validateAwsCredentials (c.initGetCallback err).credentials.props = true
      rw [(initGetCallback_fields c err).2.2.2.2.1]
      exact h
    | authHandler =>
      show validateAwsCredentials (c._authHandler err).credentials.props = true
      rw [(authHandler_fields c err).2.2.2.2.1]
      exact h
  | onAuth =>
    show validateAwsCredentials c._onAuth.credentials.props = true
    rw [(onAuth_fields c).2.2.2.2.1]
    exact h
  | onDeauth err =>
    show validateAwsCredentials (c._onDeauth err).credentials.props = true
    rw [(onDeauth_fields c err).2.2.2.2.1]
    exact h
  | authHandler err =>
    show validateAwsCredentials (c._authHandler err).credentials.props = true
    rw [(authHandler_fields c err).2.2.2.2.1]
    exact h
  | brokerWrites k v => exact brokerStores_validate [(k, v)] c h

theorem run_validate (ops : List Op) (c : AuthenticationClient)
    (h : validateAwsCredentials c.credentials.props = true) :
    validateAwsCredentials (c.run ops).credentials.props = true := by
  induction ops generalizing c with
  | nil => exact h
  | cons op rest ih =>
    rw [run_cons]
    exact ih _ (step_validate c op h)

/-- The deauthentication transition on a session none of whose store keys is an
inherited name: the session is left empty and so is the record in the storage. -/
theorem onDeauth_clears_session (c : AuthenticationClient) (s : Session) (err : JsVal)
    (hs : c.session = some s)
    (hS : s.store.all (fun q => !JsObj.inherits q.1) = true) :
    (c._onDeauth err).session = some Session.empty ∧
    Session.persisted (c._onDeauth err).storage =
      some (JSON.stringify Session.empty.toJSON) := by
  have hfilter : List.filter (fun p : String × JsVal => JsObj.hasIn [] p.1) s.store = [] := by
    rw [List.filter_eq_nil_iff]
    intro q hq
    have := (List.all_eq_true.1 hS) q hq
    simpa [JsObj.hasIn, JsObj.has] using this
  have hclear : s.clear c.storage = (Session.empty,
      (((c.storage ++ [StorageOp.setItem Session.SERIALIZED_TOKEN
          ({ s with authToken := JsVal.null } : Session).toJSON]) ++
        [StorageOp.setItem Session.SERIALIZED_TOKEN
          ({ s with authToken := JsVal.null, profile := JsVal.obj [] } : Session).toJSON]) ++
        [StorageOp.setItem Session.SERIALIZED_TOKEN
          ({ s with authToken := JsVal.null, profile := JsVal.obj [],
                    store := [] } : Session).toJSON]) ++
        [StorageOp.setItem Session.SERIALIZED_TOKEN Session.empty.toJSON]) := by
    simp [Session.clear, Session.set_authToken, Session.set_profile, Session.set_store,
      Session.set_aws, Session.save, Session.empty, Session.new, JsVal.or, JsVal.truthy,
      hfilter]
  have hsess : (c._onDeauth err).session = some (s.clear c.storage).1 ∧
      (c._onDeauth err).storage = (s.clear c.storage).2 := by
    rcases c with ⟨sess, pe, cr, em, cf, ini, rdy, tm, sto, rg, bd, nw⟩
    simp only at hs
    subst hs
    cases rdy <;> cases ini <;> cases h1 : em.truthy <;> cases h2 : cf.truthy <;>
      simp [_onDeauth, _onReady, schedule, h1, h2]
  refine ⟨by rw [hsess.1, hclear], ?_⟩
  rw [hsess.2, hclear]
  exact Storage.getItem_append_setItem _ _ _

/-! ## The claims -/

/-- C1 (as amended): for every client with a token present, after `init()`, whatever the
broker then writes on its handle, and an error-free completion of the fetch: no
`deauthenticated` event has been scheduled; one `authenticated` event has been scheduled
when `init()` made no cached-session transition or that transition was held back by
`confirmedAuthEventsOnly` on a client not yet initialized, and two (the eager one and
the confirmed one) otherwise; and `isAuthenticated()` is true: the broker handle holds
`accessKeyId`, `secretAccessKey` and `sessionToken` from its construction on, in every
state a constructed client reaches, and also once the cached-session transition has
copied them. -/
theorem C1_init_then_fetch_success (c : AuthenticationClient)
    (writes : List (String × JsVal)) (err : JsVal)
    (hTok : c.getAuthToken.truthy = true) (hErr : err.truthy = false) :
    countEvents Event.isAuthenticated ((c.init.brokerStores writes).initGetCallback err) =
      countEvents Event.isAuthenticated c +
        (if c.resumesCachedSession && c.eventGate then 2 else 1) ∧
    countEvents Event.isDeauthenticated ((c.init.brokerStores writes).initGetCallback err) =
      countEvents Event.isDeauthenticated c ∧
    (validateAwsCredentials c.credentials.props = true →
      ((c.init.brokerStores writes).initGetCallback err).isAuthenticated = true) ∧
    (c.resumesCachedSession = true →
      ((c.init.brokerStores writes).initGetCallback err).isAuthenticated = true) ∧
    (∀ (amb : Ambient) (cfg : Config) (c0 : AuthenticationClient) (ops : List Op),
      new amb sdkHandleProps (some cfg) = Except.ok c0 → c = c0.run ops →
      ((c.init.brokerStores writes).initGetCallback err).isAuthenticated = true) := by
  have ht := init_fetch_timers c writes err hTok
  have hk := init_fetch_token c writes err hTok
  have hc := (initGetCallback_fields (c.init.brokerStores writes) err).2.2.2.2.1
  have hauth : ((c.init.brokerStores writes).initGetCallback err).isAuthenticated =
      validateAwsCredentials (c.init.brokerStores writes).credentials.props := by
    unfold isAuthenticated
    rw [hk, if_pos hTok, hc]
  have hhandle : validateAwsCredentials c.credentials.props = true →
      ((c.init.brokerStores writes).initGetCallback err).isAuthenticated = true := by
    intro h
    rw [hauth]
    exact brokerStores_validate writes c.init (init_validate c h)
  refine ⟨?_, ?_, hhandle, ?_, ?_⟩
  · cases h1 : c.resumesCachedSession <;> cases h2 : c.eventGate <;>
      simp [countEvents, ht, hErr, h1, h2, readyEvents_count, Event.isAuthenticated]
  · cases h1 : c.resumesCachedSession <;> cases h2 : c.eventGate <;>
      simp [countEvents, ht, hErr, h1, h2, readyEvents_count, Event.isDeauthenticated]
  · intro hRes
    rw [hauth]
    exact brokerStores_validate writes c.init (init_resumes_validate c hTok hRes)
  · intro amb cfg c0 ops hNew hc0
    apply hhandle
    obtain ⟨poolId, -, hrec⟩ := new_ok_eq amb sdkHandleProps cfg c0 hNew
    have h0 : validateAwsCredentials c0.credentials.props = true := by
      rw [hrec]
      rfl
    rw [hc0]
    exact run_validate ops c0 h0

/-- C1, as stated, fails: a client built with a token and a session holding cached
credentials, `confirmedAuthEventsOnly` left off, has two `authenticated` events
scheduled after `init()` and an error-free fetch. -/
theorem C1_counterexample :
    new sampleAmbient [] (some cachedConfig) = Except.ok cachedClient ∧
    cachedClient.getAuthToken.truthy = true ∧
    (cachedClient.init.initGetCallback JsVal.undefined).timers =
      [Event.authenticated, Event.authenticated] ∧
    countEvents Event.isAuthenticated (cachedClient.init.initGetCallback JsVal.undefined) = 2 :=
  ⟨rfl, rfl, rfl, rfl⟩

/-- The amended C1 at the scenario client on a handle as the broker builds it, the
broker storing a full set of credentials: one `authenticated` event, and
`isAuthenticated()` is true. -/
theorem C1_witness :
    new sampleAmbient sdkHandleProps (some scenarioConfig) = Except.ok sdkScenarioClient ∧
    sdkScenarioClient.getAuthToken.truthy = true ∧ JsVal.undefined.truthy = false ∧
    countEvents Event.isAuthenticated
      ((sdkScenarioClient.init.brokerStores
        [("accessKeyId", JsVal.str "AKIA"), ("secretAccessKey", JsVal.str "secret"),
         ("sessionToken", JsVal.str "st")]).initGetCallback JsVal.undefined) = 1 ∧
    ((sdkScenarioClient.init.brokerStores
        [("accessKeyId", JsVal.str "AKIA"), ("secretAccessKey", JsVal.str "secret"),
         ("sessionToken", JsVal.str "st")]).initGetCallback JsVal.undefined).isAuthenticated =
      true :=
  ⟨rfl, rfl, rfl,
    (C1_init_then_fetch_success sdkScenarioClient
      [("accessKeyId", JsVal.str "AKIA"), ("secretAccessKey", JsVal.str "secret"),
       ("sessionToken", JsVal.str "st")] JsVal.undefined rfl rfl).1,
    (C1_init_then_fetch_success sdkScenarioClient
      [("accessKeyId", JsVal.str "AKIA"), ("secretAccessKey", JsVal.str "secret"),
       ("sessionToken", JsVal.str "st")] JsVal.undefined rfl rfl).2.2.2.2
      sampleAmbient scenarioConfig sdkScenarioClient [] rfl rfl⟩

/-- C2 (as amended): for every initialized client, `close()` makes `getAuthToken()` read
`null` at once; when its refresh completes with an error `e`, `deauthenticated` with
payload `e` and no `authenticated` event is scheduled, and when it completes without
error, `authenticated` and no `deauthenticated` event is scheduled; the token still reads
`null`.  A following `open(t)` with an error-free refresh schedules `authenticated`, and
`getAuthToken()` reads `t`. -/
theorem C2_close_then_open (c : AuthenticationClient) (err t err2 : JsVal)
    (hInit : c._initialized = true) (hErr2 : err2.truthy = false) :
    c.close.getAuthToken = JsVal.null ∧
    (c.close.runCallback Callback.authHandler err).timers =
      c.timers ++ c.readyEvents ++
        [if err.truthy then Event.deauthenticated err else Event.authenticated] ∧
    (c.close.runCallback Callback.authHandler err).getAuthToken = JsVal.null ∧
    (((c.close.runCallback Callback.authHandler err).open_ t).runCallback
        Callback.authHandler err2).timers =
      (c.close.runCallback Callback.authHandler err).timers ++ [Event.authenticated] ∧
    (((c.close.runCallback Callback.authHandler err).open_ t).runCallback
        Callback.authHandler err2).getAuthToken = t := by
  have hc1 : c.close._initialized = true := hInit
  have hT : (c.close.runCallback Callback.authHandler err).timers =
      c.timers ++ c.readyEvents ++
        [if err.truthy then Event.deauthenticated err else Event.authenticated] := by
    show (c.close._authHandler err).timers = _
    rw [authHandler_timers, hc1]
    simp [close, brokerCall, setAuthToken, readyEvents]
  obtain ⟨f1, f2, -, -, -, -⟩ := authHandler_fields c.close err
  refine ⟨close_getAuthToken c, hT, ?_, ?_, ?_⟩
  · show (c.close._authHandler err).getAuthToken = _
    rw [authHandler_getAuthToken, close_getAuthToken]
  · show (((c.close._authHandler err).open_ t)._authHandler err2).timers =
      (c.close._authHandler err).timers ++ [Event.authenticated]
    rw [authHandler_timers]
    have h1 : ((c.close._authHandler err).open_ t)._initialized = true := by
      show (c.close._authHandler err)._initialized = true
      rw [f1, hc1]
    have h2 : ((c.close._authHandler err).open_ t).readyEvents = [] := by
      show (if !(c.close._authHandler err)._ready &&
        (c.close._authHandler err).emitReadyEvent.truthy then [Event.ready] else []) = []
      rw [f2]
      simp
    rw [h1, h2]
    simp [open_, brokerCall, setAuthToken, hErr2]
  · show (((c.close._authHandler err).open_ t)._authHandler err2).getAuthToken = t
    rw [authHandler_getAuthToken, open_getAuthToken]

/-- C2, as stated, fails: the scenario client, initialized with a token and
authenticated, schedules `authenticated` and no `deauthenticated` event when the
refresh started by `close()` completes without error. -/
theorem C2_counterexample :
    authenticatedClient._initialized = true ∧ authenticatedClient.isAuthenticated = true ∧
    (authenticatedClient.close.runCallback Callback.authHandler JsVal.undefined).timers =
      authenticatedClient.timers ++ [Event.authenticated] ∧
    countEvents Event.isDeauthenticated
      (authenticatedClient.close.runCallback Callback.authHandler JsVal.undefined) = 0 :=
  ⟨rfl, rfl, rfl, rfl⟩

/-- The amended C2 on the scenario of the specification, the refresh after `close()`
failing. -/
theorem C2_witness :
    authenticatedClient._initialized = true ∧ JsVal.undefined.truthy = false ∧
    (authenticatedClient.close.runCallback Callback.authHandler sampleError).timers =
      [Event.authenticated, Event.deauthenticated sampleError] ∧
    (((authenticatedClient.close.runCallback Callback.authHandler sampleError).open_
      (JsVal.str "tok2")).runCallback Callback.authHandler JsVal.undefined).getAuthToken =
      JsVal.str "tok2" :=
  ⟨rfl, rfl,
    (C2_close_then_open authenticatedClient sampleError (JsVal.str "tok2") JsVal.undefined
      rfl rfl).2.1,
    (C2_close_then_open authenticatedClient sampleError (JsVal.str "tok2") JsVal.undefined
      rfl rfl).2.2.2.2⟩

/-- C3 (as amended): for every client and every error `e` handed by the broker to a
callback, the callback runs the deauthentication transition with `e` (the closure of
`init()` after setting `_initialized`).  The callback of `init()` always schedules
`deauthenticated` with payload `e`; the callback of `open()` or `close()` schedules it
when `_initialized` is true or `confirmedAuthEventsOnly` is false, and schedules nothing
but a possible `ready` otherwise. -/
theorem C3_broker_error_routed (c : AuthenticationClient) (e : JsVal)
    (hErr : e.truthy = true) :
    c.runCallback Callback.initGet e = ({ c with _initialized := true })._onDeauth e ∧
    c.runCallback Callback.authHandler e = c._onDeauth e ∧
    (c.runCallback Callback.initGet e).timers =
      c.timers ++ c.readyEvents ++ [Event.deauthenticated e] ∧
    (c.runCallback Callback.authHandler e).timers =
      c.timers ++ c.readyEvents ++
        (if c.eventGate then [Event.deauthenticated e] else []) ∧
    (c.runCallback Callback.initGet e)._ready = true ∧
    (c.runCallback Callback.authHandler e)._ready = true := by
  have h1 : c.runCallback Callback.initGet e = ({ c with _initialized := true })._onDeauth e := by
    simp [runCallback, initGetCallback, _authHandler, hErr]
  have h2 : c.runCallback Callback.authHandler e = c._onDeauth e := by
    simp [runCallback, _authHandler, hErr]
  refine ⟨h1, h2, ?_, ?_, ?_, ?_⟩
  · rw [h1, onDeauth_timers]
    simp [readyEvents]
  · rw [h2, onDeauth_timers]
    simp [eventGate]
  · rw [h1]
    exact (onDeauth_fields _ e).2.1
  · rw [h2]
    exact (onDeauth_fields _ e).2.1

/-- C3, as stated, fails: on a client built with `confirmedAuthEventsOnly` true and not
yet initialized, an error handed to the refresh callback of `open()` schedules no
event. -/
theorem C3_counterexample :
    new sampleAmbient [] (some strictConfig) = Except.ok strictClient ∧
    sampleError.truthy = true ∧
    ((strictClient.open_ (JsVal.str "tok1")).credentials.calls =
      [BrokerCall.refresh Callback.authHandler]) ∧
    ((strictClient.open_ (JsVal.str "tok1")).runCallback Callback.authHandler
      sampleError).timers = [] :=
  ⟨rfl, rfl, rfl, rfl⟩

/-- The amended C3 at the scenario client, the fetch of `init()` failing. -/
theorem C3_witness :
    sampleError.truthy = true ∧
    (scenarioClient.init.runCallback Callback.initGet sampleError).timers =
      [Event.deauthenticated sampleError] :=
  ⟨rfl, (C3_broker_error_routed scenarioClient.init sampleError rfl).2.2.1⟩

/-- C4: for every client whose current token is absent (falsy), whatever its session and
flags, `init()` sets `_initialized` to true before it returns, makes no call on the
broker, and schedules exactly one `deauthenticated` event, whose payload is `undefined`,
and no `authenticated` event. -/
theorem C4_init_without_token (c : AuthenticationClient)
    (hTok : c.getAuthToken.truthy = false) :
    c.init._initialized = true ∧
    c.init.credentials.calls = c.credentials.calls ∧
    c.init.timers = c.timers ++ c.readyEvents ++ [Event.deauthenticated JsVal.undefined] ∧
    countEvents Event.isDeauthenticated c.init =
      countEvents Event.isDeauthenticated c + 1 ∧
    countEvents Event.isAuthenticated c.init = countEvents Event.isAuthenticated c := by
  have hinit : c.init = ({ c with _initialized := true })._onDeauth JsVal.undefined := by
    simp [init, hTok]
  have hf := onDeauth_fields ({ c with _initialized := true }) JsVal.undefined
  have ht := onDeauth_timers ({ c with _initialized := true }) JsVal.undefined
  have hr : ({ c with _initialized := true } : AuthenticationClient).readyEvents
      = c.readyEvents := rfl
  rw [hinit]
  refine ⟨hf.1, ?_, ?_, ?_, ?_⟩
  · rw [hf.2.2.2.2.1]
  · simpa [hr] using ht
  · simp [countEvents, ht, hr, readyEvents_count, Event.isDeauthenticated]
  · simp [countEvents, ht, hr, readyEvents_count, Event.isAuthenticated]

/-- The events scheduled by C4 at a client built without token. -/
theorem C4_witness :
    tokenlessClient.getAuthToken.truthy = false ∧
    tokenlessClient.init.timers = [Event.deauthenticated JsVal.undefined] ∧
    tokenlessClient.init._initialized = true :=
  ⟨rfl, (C4_init_without_token tokenlessClient rfl).2.2.1,
    (C4_init_without_token tokenlessClient rfl).1⟩

/-- C5: for every client with a token present, after `init()`, whatever the broker then
writes on its handle, and a completion of the fetch with an error `e`: exactly one
`deauthenticated` event has been scheduled, it is the last event scheduled and its
payload is `e`; `_initialized` is true; `getAuthToken()` returns the token that was
there before `init()`. -/
theorem C5_init_then_fetch_error (c : AuthenticationClient)
    (writes : List (String × JsVal)) (e : JsVal)
    (hTok : c.getAuthToken.truthy = true) (hErr : e.truthy = true) :
    (∃ mid : List Event, mid.countP Event.isDeauthenticated = 0 ∧
      ((c.init.brokerStores writes).initGetCallback e).timers =
        c.timers ++ mid ++ [Event.deauthenticated e]) ∧
    countEvents Event.isDeauthenticated ((c.init.brokerStores writes).initGetCallback e) =
      countEvents Event.isDeauthenticated c + 1 ∧
    ((c.init.brokerStores writes).initGetCallback e)._initialized = true ∧
    ((c.init.brokerStores writes).initGetCallback e).getAuthToken = c.getAuthToken := by
  have ht := init_fetch_timers c writes e hTok
  rw [if_pos hErr] at ht
  have hmid : ((if c.resumesCachedSession
        then c.readyEvents ++ (if c.eventGate then [Event.authenticated] else [])
        else []) ++ (c.init.brokerStores writes).readyEvents).countP
        Event.isDeauthenticated = 0 := by
    cases h1 : c.resumesCachedSession <;> cases h2 : c.eventGate <;>
      simp [readyEvents_count, Event.isDeauthenticated]
  refine ⟨⟨_, hmid, ht⟩, ?_, (initGetCallback_fields _ e).1, init_fetch_token c writes e hTok⟩
  rw [countEvents, ht, List.countP_append, List.countP_append, hmid]
  simp [countEvents, Event.isDeauthenticated]

/-- The events scheduled by C5 at the scenario client when the fetch fails. -/
theorem C5_witness :
    scenarioClient.getAuthToken.truthy = true ∧ sampleError.truthy = true ∧
    countEvents Event.isDeauthenticated
      ((scenarioClient.init.brokerStores []).initGetCallback sampleError) = 1 ∧
    ((scenarioClient.init.brokerStores []).initGetCallback sampleError).getAuthToken =
      JsVal.str "tok1" :=
  ⟨rfl, rfl, (C5_init_then_fetch_error scenarioClient [] sampleError rfl rfl).2.1,
    (C5_init_then_fetch_error scenarioClient [] sampleError rfl rfl).2.2.2⟩

/-- C6: for every client constructed with `confirmedAuthEventsOnly` true and every
sequence of method calls, broker callbacks, broker writes and direct runs of the
transitions, as long as `_initialized` is false no `authenticated` and no
`deauthenticated` event has been scheduled; once `_initialized` is true the
authentication transition schedules `authenticated` and the deauthentication transition
schedules `deauthenticated` with its argument. -/
theorem C6_no_event_before_initialized (amb : Ambient) (props : JsObj) (cfg : Config)
    (c0 : AuthenticationClient) (ops : List Op)
    (hNew : new amb props (some cfg) = Except.ok c0)
    (hFlag : cfg.confirmedAuthEventsOnly.truthy = true) :
    ((c0.run ops)._initialized = false →
      countEvents Event.isAuthenticated (c0.run ops) = 0 ∧
      countEvents Event.isDeauthenticated (c0.run ops) = 0) ∧
    ((c0.run ops)._initialized = true →
      (c0.run ops)._onAuth.timers =
        (c0.run ops).timers ++ (c0.run ops).readyEvents ++ [Event.authenticated] ∧
      ∀ e : JsVal, ((c0.run ops)._onDeauth e).timers =
        (c0.run ops).timers ++ (c0.run ops).readyEvents ++ [Event.deauthenticated e]) := by
  obtain ⟨cfg2, hcfg, ht, -, -, -, hconf, -⟩ := new_ok_fields amb props (some cfg) c0 hNew
  cases hcfg
  have hF : c0.confirmedAuthEventsOnly.truthy = true := by rw [hconf, hFlag]
  have hInv := run_gate_invariant ops c0 hF (fun _ => by simp [ht])
  refine ⟨hInv.2, ?_⟩
  intro hi
  refine ⟨?_, ?_⟩
  · rw [onAuth_timers, hi]
    simp
  · intro e
    rw [onDeauth_timers, hi]
    simp

/-- C6 on a client built with the flag: opening, a failed refresh and both transitions
run before `init()` schedule neither event; the transition after `init()` does. -/
theorem C6_witness :
    new sampleAmbient [] (some strictConfig) = Except.ok strictClient ∧
    strictConfig.confirmedAuthEventsOnly.truthy = true ∧
    (countEvents Event.isAuthenticated
        (strictClient.run [Op.open_ (JsVal.str "tok1"),
          Op.callback Callback.authHandler sampleError, Op.onAuth,
          Op.onDeauth JsVal.undefined]) = 0 ∧
      countEvents Event.isDeauthenticated
        (strictClient.run [Op.open_ (JsVal.str "tok1"),
          Op.callback Callback.authHandler sampleError, Op.onAuth,
          Op.onDeauth JsVal.undefined]) = 0) ∧
    ((strictClient.run [Op.init])._onAuth).timers =
      [Event.deauthenticated JsVal.undefined, Event.authenticated] :=
  ⟨rfl, rfl,
    (C6_no_event_before_initialized sampleAmbient [] strictConfig strictClient
      [Op.open_ (JsVal.str "tok1"), Op.callback Callback.authHandler sampleError,
        Op.onAuth, Op.onDeauth JsVal.undefined] rfl rfl).1 rfl,
    ((C6_no_event_before_initialized sampleAmbient [] strictConfig strictClient
      [Op.init] rfl rfl).2 rfl).1⟩

/-- C7: for every client whose `confirmedAuthEventsOnly` is false, the result handler
called with an error `e` schedules `deauthenticated` with payload exactly `e` and no
`authenticated` event; called with no error (a falsy argument) it schedules
`authenticated` and no `deauthenticated` event; the deauthentication transition run
without error schedules `deauthenticated` with payload `undefined`.  A `ready` event
comes first when this is the first transition of a client that emits it. -/
theorem C7_result_handler_routes (c : AuthenticationClient)
    (hFlag : c.confirmedAuthEventsOnly.truthy = false) :
    (∀ e : JsVal, e.truthy = true →
      (c._authHandler e).timers = c.timers ++ c.readyEvents ++ [Event.deauthenticated e] ∧
      countEvents Event.isAuthenticated (c._authHandler e) =
        countEvents Event.isAuthenticated c) ∧
    (∀ e : JsVal, e.truthy = false →
      (c._authHandler e).timers = c.timers ++ c.readyEvents ++ [Event.authenticated] ∧
      countEvents Event.isDeauthenticated (c._authHandler e) =
        countEvents Event.isDeauthenticated c) ∧
    (c._onDeauth JsVal.undefined).timers =
      c.timers ++ c.readyEvents ++ [Event.deauthenticated JsVal.undefined] := by
  refine ⟨?_, ?_, ?_⟩
  · intro e he
    simp [countEvents, authHandler_timers, hFlag, he, readyEvents_count,
      Event.isAuthenticated]
  · intro e he
    simp [countEvents, authHandler_timers, hFlag, he, readyEvents_count,
      Event.isDeauthenticated]
  · simp [onDeauth_timers, hFlag]

/-- The events scheduled by C7 at the scenario client. -/
theorem C7_witness :
    scenarioClient.confirmedAuthEventsOnly.truthy = false ∧
    (scenarioClient._onDeauth JsVal.undefined).timers =
      [Event.deauthenticated JsVal.undefined] :=
  ⟨rfl, (C7_result_handler_routes scenarioClient rfl).2.2⟩

/-- C8: for every constructed client and every sequence of method calls, broker
callbacks, broker writes and direct runs of the transitions, the `ready` event has been
scheduled at most once: once if a transition has run (`_ready` is latched) and
`emitReadyEvent` is true, never otherwise; every authentication or deauthentication
transition latches `_ready`, so the event is scheduled by the first one. -/
theorem C8_ready_at_most_once (amb : Ambient) (props : JsObj) (cfg : Config)
    (c0 : AuthenticationClient) (ops : List Op)
    (hNew : new amb props (some cfg) = Except.ok c0) :
    countEvents Event.isReady (c0.run ops) ≤ 1 ∧
    countEvents Event.isReady (c0.run ops) =
      (if (c0.run ops)._ready && cfg.emitReadyEvent.truthy then 1 else 0) ∧
    (c0.run ops)._onAuth._ready = true ∧
    (∀ e : JsVal, ((c0.run ops)._onDeauth e)._ready = true) ∧
    ((c0.run ops)._ready = false →
      (c0.run ops)._onAuth.timers.countP Event.isReady =
        (if cfg.emitReadyEvent.truthy then 1 else 0) ∧
      ∀ e : JsVal, ((c0.run ops)._onDeauth e).timers.countP Event.isReady =
        (if cfg.emitReadyEvent.truthy then 1 else 0)) := by
  obtain ⟨cfg2, hcfg, ht, hr, -, hemit, -, -⟩ := new_ok_fields amb props (some cfg) c0 hNew
  cases hcfg
  have hInv := run_ready_invariant ops c0 (by simp [ht, hr])
  have hcount : countEvents Event.isReady (c0.run ops) =
      (if (c0.run ops)._ready && cfg.emitReadyEvent.truthy then 1 else 0) := by
    rw [countEvents, hInv.2, hemit]
  have hstep : ∀ op : Op, ((c0.run ops).step op).timers.countP Event.isReady =
      if ((c0.run ops).step op)._ready && cfg.emitReadyEvent.truthy then 1 else 0 := by
    intro op
    have h := (run_ready_invariant [op] (c0.run ops) (by rw [hInv.2, hInv.1])).2
    rw [hInv.1, hemit] at h
    exact h
  refine ⟨?_, hcount, (onAuth_fields _).2.1, fun e => (onDeauth_fields _ e).2.1, ?_⟩
  · rw [hcount]
    split <;> simp
  · intro _
    refine ⟨?_, fun e => ?_⟩
    · have h := hstep Op.onAuth
      simp only [step] at h
      rw [h]
      simp [(onAuth_fields (c0.run ops)).2.1]
    · have h := hstep (Op.onDeauth e)
      simp only [step] at h
      rw [h]
      simp [(onDeauth_fields (c0.run ops) e).2.1]

/-- C8 on a client built with `emitReadyEvent`: one `ready` event after `init()`, a
`close()`, an `open()` and their callbacks. -/
theorem C8_witness :
    new sampleAmbient [] (some readyConfig) = Except.ok readyClient ∧
    countEvents Event.isReady
      (readyClient.run [Op.init, Op.open_ (JsVal.str "tok1"),
        Op.callback Callback.authHandler JsVal.undefined, Op.close,
        Op.callback Callback.authHandler sampleError, Op.init]) = 1 :=
  ⟨rfl, (C8_ready_at_most_once sampleAmbient [] readyConfig readyClient
    [Op.init, Op.open_ (JsVal.str "tok1"),
      Op.callback Callback.authHandler JsVal.undefined, Op.close,
      Op.callback Callback.authHandler sampleError, Op.init] rfl).2.1⟩

/-- C9 (as amended): construction throws when the config is absent; for a config that
is given it returns exactly when the pool identifier, the role identifier and the
provider endpoint are all present (truthy), the pool identifier is a string, and the
`session` option is either missing (falsy) or a `Session` instance; it throws in every
other case, in particular whenever one of the three is missing. -/
theorem C9_construction_requirements (amb : Ambient) (props : JsObj) :
    returns (new amb props none) = false ∧
    ∀ cfg : Config, returns (new amb props (some cfg)) =
      (cfg.identityPoolId.truthy && cfg.authRoleArn.truthy && cfg.providerEndpoint.truthy &&
        cfg.identityPoolId.isString &&
        (!sessionArgTruthy cfg.session || instanceofSession cfg.session)) := by
  refine ⟨rfl, ?_⟩
  intro cfg
  unfold new
  dsimp only
  cases h1 : cfg.identityPoolId.truthy <;> cases h2 : cfg.authRoleArn.truthy <;>
    cases h3 : cfg.providerEndpoint.truthy <;> cases h4 : sessionArgTruthy cfg.session <;>
    cases h5 : instanceofSession cfg.session <;> simp [returns] <;>
    cases h6 : cfg.identityPoolId <;> simp [returns, JsVal.isString]

/-- C9, as stated, fails: the scenario config has all three identifiers, yet with a
plain object as `session` the constructor throws. -/
theorem C9_counterexample :
    plainObjectSessionConfig.identityPoolId.truthy = true ∧
    plainObjectSessionConfig.authRoleArn.truthy = true ∧
    plainObjectSessionConfig.providerEndpoint.truthy = true ∧
    new sampleAmbient [] (some plainObjectSessionConfig) = Except.error
      (JsError.error "Session passed in config is not an instance of Authentication.Session") ∧
    returns (new sampleAmbient [] (some plainObjectSessionConfig)) = false :=
  ⟨rfl, rfl, rfl, rfl, rfl⟩

/-- C10 (as amended): for every config whose three identifiers are present, the pool
identifier being a string: a `session` value that is a `Session` instance makes
construction return a client whose session is that very session; a value that is truthy
and not a `Session` instance makes construction throw; a value that is falsy makes
construction return a client without session. -/
theorem C10_session_option (amb : Ambient) (props : JsObj) (cfg : Config)
    (hPool : cfg.identityPoolId.truthy = true) (hStr : cfg.identityPoolId.isString = true)
    (hRole : cfg.authRoleArn.truthy = true) (hEnd : cfg.providerEndpoint.truthy = true) :
    (∀ s : Session, cfg.session = SessionArg.inst s →
      ∃ c, new amb props (some cfg) = Except.ok c ∧ c.session = some s) ∧
    (∀ v : JsVal, cfg.session = SessionArg.value v → v.truthy = true →
      returns (new amb props (some cfg)) = false) ∧
    (∀ v : JsVal, cfg.session = SessionArg.value v → v.truthy = false →
      ∃ c, new amb props (some cfg) = Except.ok c ∧ c.session = none) := by
  cases hp : cfg.identityPoolId with
  | str p =>
    have hPool2 : (JsVal.str p).truthy = true := by rw [← hp]; exact hPool
    refine ⟨?_, ?_, ?_⟩
    · intro s hs
      simp [new, hPool2, hRole, hEnd, hs, hp, sessionArgTruthy, instanceofSession,
        sessionOrNull]
    · intro v hv ht
      simp [new, hPool, hRole, hEnd, hv, ht, sessionArgTruthy, instanceofSession, returns]
    · intro v hv ht
      simp [new, hPool2, hRole, hEnd, hv, ht, hp, sessionArgTruthy, instanceofSession,
        sessionOrNull]
  | _ => simp [hp, JsVal.isString] at hStr

/-- C10, as stated, fails: the number zero is a supplied `session` value that is not a
`Session` instance, yet construction returns, with no session attached. -/
theorem C10_counterexample :
    zeroSessionConfig.session = SessionArg.value (JsVal.num 0) ∧
    instanceofSession zeroSessionConfig.session = false ∧
    new sampleAmbient [] (some zeroSessionConfig) = Except.ok scenarioClient ∧
    scenarioClient.session = none :=
  ⟨rfl, rfl, rfl, rfl⟩

/-- The amended C10 at the config that carries `cachedSession`. -/
theorem C10_witness :
    cachedConfig.identityPoolId.truthy = true ∧ cachedConfig.identityPoolId.isString = true ∧
    cachedConfig.authRoleArn.truthy = true ∧ cachedConfig.providerEndpoint.truthy = true ∧
    ∃ c, new sampleAmbient [] (some cachedConfig) = Except.ok c ∧
      c.session = some cachedSession :=
  ⟨rfl, rfl, rfl, rfl,
    (C10_session_option sampleAmbient [] cachedConfig rfl rfl rfl rfl).1 cachedSession rfl⟩

/-- C11: for every client state, `isAuthenticated()` returns true exactly when the token
is present (truthy) and `accessKeyId`, `secretAccessKey` and `sessionToken` are all
present on the broker handle; it returns false whenever no token is set.  The method
only reads: its embedding returns the answer and has no state to hand back. -/
theorem C11_isAuthenticated_iff (c : AuthenticationClient) :
    c.isAuthenticated =
      (c.getAuthToken.truthy &&
        (JsObj.has c.credentials.props "accessKeyId" &&
          JsObj.has c.credentials.props "secretAccessKey" &&
          JsObj.has c.credentials.props "sessionToken")) ∧
    (c.getAuthToken.truthy = false → c.isAuthenticated = false) := by
  unfold isAuthenticated validateAwsCredentials
  cases h : c.getAuthToken.truthy <;> simp

/-- C12: for every client and every token `t`, `open(t)` has set the token when it
returns (`getAuthToken()` reads `t`), has made exactly one call on the broker, a
`refresh` given the result handler, whose completion is the result handler run with the
error of the broker, and has scheduled no event; the latches are untouched. -/
theorem C12_open_synchronous (c : AuthenticationClient) (t : JsVal) :
    (c.open_ t).getAuthToken = t ∧
    (c.open_ t).credentials.calls =
      c.credentials.calls ++ [BrokerCall.refresh Callback.authHandler] ∧
    (∀ err : JsVal, (c.open_ t).runCallback Callback.authHandler err =
      (c.open_ t)._authHandler err) ∧
    (c.open_ t).timers = c.timers ∧
    (c.open_ t)._initialized = c._initialized ∧ (c.open_ t)._ready = c._ready :=
  ⟨open_getAuthToken c t, rfl, fun _ => rfl, rfl, rfl, rfl⟩

/-- C13: for every client, `close()` has set the token to `null` when it returns
(`getAuthToken()` reads `null`), has called `clearCachedId` and then `refresh` with the
result handler on the broker and nothing else, and has scheduled no event; the
completion of the refresh is the result handler run with the error of the broker. -/
theorem C13_close_synchronous (c : AuthenticationClient) :
    c.close.getAuthToken = JsVal.null ∧
    c.close.credentials.calls =
      c.credentials.calls ++
        [BrokerCall.clearCachedId, BrokerCall.refresh Callback.authHandler] ∧
    (∀ err : JsVal, c.close.runCallback Callback.authHandler err =
      c.close._authHandler err) ∧
    c.close.timers = c.timers ∧
    c.close._initialized = c._initialized ∧ c.close._ready = c._ready := by
  refine ⟨close_getAuthToken c, ?_, fun _ => rfl, rfl, rfl, rfl⟩
  simp [close, brokerCall, setAuthToken]

/-- C14 (as amended): for every session whose store has no key named like a property
that objects inherit (`constructor`, `toString`, ...), and every object `X` that JSON
can represent (no property holds `undefined`, at any depth) and that has no own property
`__proto__`, after `session.store = X` the store read back holds exactly the properties
of `X`: a key is in it if and only if it is in `X`, and it reads the value `X` has (keys
of the old store missing from `X` are gone, nothing is merged); the call writes one
record, whose `store` field is that store. -/
theorem C14_store_setter_syncs (s : Session) (st : Storage) (X : JsObj)
    (hX : jsonSafeFields X = true) (hProto : JsObj.has X "__proto__" = false)
    (hS : s.store.all (fun q => !JsObj.inherits q.1) = true) :
    JsObj.sameMapping (s.set_store st X).1.get_store X ∧
    (s.set_store st X).2 = st ++ [StorageOp.setItem Session.SERIALIZED_TOKEN
      (JsVal.obj [("authToken", s.authToken), ("profile", s.profile),
        ("store", JsVal.obj (s.set_store st X).1.get_store), ("aws", JsVal.obj s.aws)])] := by
  have hS2 : ∀ q ∈ s.store, JsObj.inherits q.1 = false := by
    intro q hq
    simpa using (List.all_eq_true.1 hS) q hq
  obtain ⟨hhas, hmem⟩ := Session.set_store_store s st X hProto hS2
  have hsafeX := (jsonSafeFields_iff X).1 hX
  have hsafe : jsonSafeFields (s.set_store st X).1.store = true := by
    rw [jsonSafeFields_iff]
    intro q hq
    obtain ⟨h1, h2⟩ := hmem q hq
    rw [h2]
    exact hsafeX _ (JsObj.get_mem X q.1 h1)
  have hclone : (s.set_store st X).1.get_store = (s.set_store st X).1.store := by
    unfold Session.get_store Session.cloneUtility
    exact jsonCloneFields_of_safe _ hsafe
  refine ⟨?_, rfl⟩
  rw [hclone]
  intro k
  refine ⟨hhas k, ?_⟩
  cases hk : JsObj.has X k
  · rw [JsObj.get_of_not_has X k hk, JsObj.get_of_not_has _ k ((hhas k).trans hk)]
  · apply JsObj.get_eq_of_forall _ k _ ((hhas k).trans hk)
    intro q hq e
    rw [(hmem q hq).2, e]

/-- C14, as stated, fails: the object `{a: undefined}` has the key `a`, the store read
back after it was assigned has not. -/
theorem C14_counterexample :
    JsObj.has undefinedStore "a" = true ∧
    (storeSession.set_store [] undefinedStore).1.get_store = [] ∧
    JsObj.has (storeSession.set_store [] undefinedStore).1.get_store "a" = false ∧
    ¬ JsObj.sameMapping (storeSession.set_store [] undefinedStore).1.get_store
      undefinedStore := by
  refine ⟨rfl, rfl, rfl, ?_⟩
  intro h
  have h1 := (h "a").1
  have h2 : JsObj.has (storeSession.set_store [] undefinedStore).1.get_store "a" = false :=
    rfl
  have h3 : JsObj.has undefinedStore "a" = true := rfl
  rw [h2, h3] at h1
  exact absurd h1 (by simp)

/-- The amended C14 on the example of the specification: the store `{a: 1, b: 2}` set
to `{b: 3, c: 4}` reads back as `{b: 3, c: 4}`. -/
theorem C14_witness :
    jsonSafeFields storeAfter = true ∧ JsObj.has storeAfter "__proto__" = false ∧
    storeSession.store.all (fun q => !JsObj.inherits q.1) = true ∧
    JsObj.sameMapping (storeSession.set_store [] storeAfter).1.get_store storeAfter ∧
    (storeSession.set_store [] storeAfter).1.get_store =
      [("b", JsVal.num 3), ("c", JsVal.num 4)] :=
  ⟨rfl, rfl, rfl, (C14_store_setter_syncs storeSession [] storeAfter rfl rfl rfl).1, rfl⟩

/-- C15 (as amended): for every session whose `authToken` is `null` or a non-empty
string and whose `profile`, `store` and `aws` are objects that JSON can represent (empty
or not), saving it and then calling `fromStorage()` on what the storage holds returns a
session with the same four fields holding the same values. -/
theorem C15_session_round_trip (s : Session) (st : Storage) (p : JsObj)
    (hTok : s.authToken = JsVal.null ∨ ∃ t : String, s.authToken = JsVal.str t ∧ t ≠ "")
    (hProf : s.profile = JsVal.obj p) (hp : jsonSafeFields p = true)
    (hStore : jsonSafeFields s.store = true) (hAws : jsonSafeFields s.aws = true) :
    Session.fromStorage (Session.persisted (s.save st)) = some s := by
  obtain ⟨tok, prof, store, aws⟩ := s
  simp only at hTok hProf hStore hAws
  subst hProf
  have hcs : jsonCloneFields store = store := jsonCloneFields_of_safe store hStore
  have hca : jsonCloneFields aws = aws := jsonCloneFields_of_safe aws hAws
  have hcp : jsonCloneFields p = p := jsonCloneFields_of_safe p hp
  have hper : Session.persisted (Session.save ⟨tok, JsVal.obj p, store, aws⟩ st) =
      some (JSON.stringify (Session.toJSON ⟨tok, JsVal.obj p, store, aws⟩)) :=
    Storage.getItem_append_setItem st _ _
  rw [hper]
  rcases hTok with h | ⟨t, h, ht⟩
  · subst h
    simp [Session.fromStorage, JSON.stringify, JSON.parse, Session.toJSON,
      Session.cloneUtility, JsVal.jsonClone, jsonCloneFields, hcs, hca, hcp,
      Parsed.orEmptyObject, Parsed.prop, JsVal.truthy, JsVal.or, JsVal.asObject,
      JsObj.get, Session.new]
  · subst h
    simp [Session.fromStorage, JSON.stringify, JSON.parse, Session.toJSON,
      Session.cloneUtility, JsVal.jsonClone, jsonCloneFields, hcs, hca, hcp,
      Parsed.orEmptyObject, Parsed.prop, JsVal.truthy, JsVal.or, JsVal.asObject,
      JsObj.get, Session.new, ht]

/-- C15, as stated, fails: a session whose `authToken` is the empty string, a string,
comes back from the storage with `authToken` `null`. -/
theorem C15_counterexample :
    emptyTokenSession.authToken = JsVal.str "" ∧
    Session.fromStorage (Session.persisted (emptyTokenSession.save [])) =
      some { emptyTokenSession with authToken := JsVal.null } ∧
    (Session.fromStorage (Session.persisted (emptyTokenSession.save []))).map
      Session.authToken = some JsVal.null :=
  ⟨rfl, rfl, rfl⟩

/-- The amended C15 at a session holding a token and a full set of credentials. -/
theorem C15_witness :
    (cachedSession.authToken = JsVal.null ∨
      ∃ t : String, cachedSession.authToken = JsVal.str t ∧ t ≠ "") ∧
    cachedSession.profile = JsVal.obj [] ∧ jsonSafeFields [] = true ∧
    jsonSafeFields cachedSession.store = true ∧ jsonSafeFields cachedSession.aws = true ∧
    Session.fromStorage (Session.persisted (cachedSession.save [])) = some cachedSession :=
  ⟨Or.inr ⟨"tok1", rfl, by decide⟩, rfl, rfl, rfl, rfl,
    C15_session_round_trip cachedSession [] [] (Or.inr ⟨"tok1", rfl, by decide⟩)
      rfl rfl rfl rfl⟩

/-- C16: whatever the storage holds under the session key that is not a JSON object —
nothing, the empty string, a text that is not JSON, or JSON for `null`, a boolean, a
number, a string or an array — `fromStorage()` returns, without throwing, the empty
session: `authToken` is `null` and `profile`, `store` and `aws` are empty objects. -/
theorem C16_fromStorage_fallback :
    Session.fromStorage none = some Session.empty ∧
    Session.fromStorage (some StoredText.empty) = some Session.empty ∧
    Session.fromStorage (some StoredText.malformed) = some Session.empty ∧
    Session.fromStorage (some StoredText.jsonOther) = some Session.empty ∧
    Session.fromStorage (some (StoredText.json JsVal.null)) = some Session.empty ∧
    (∀ b : Bool, Session.fromStorage (some (StoredText.json (JsVal.bool b))) =
      some Session.empty) ∧
    (∀ n : Int, Session.fromStorage (some (StoredText.json (JsVal.num n))) =
      some Session.empty) ∧
    (∀ t : String, Session.fromStorage (some (StoredText.json (JsVal.str t))) =
      some Session.empty) ∧
    Session.empty =
      { authToken := JsVal.null, profile := JsVal.obj [], store := [], aws := [] } := by
  refine ⟨rfl, rfl, rfl, rfl, rfl, ?_, ?_, ?_, rfl⟩
  · intro b
    cases b <;> rfl
  · intro n
    by_cases h : n = 0
    · subst h
      rfl
    · simp [Session.fromStorage, JSON.parse, Parsed.orEmptyObject, Parsed.prop,
        JsVal.truthy, h, JsVal.or, JsVal.asObject, Session.new, Session.empty]
  · intro t
    by_cases h : t = ""
    · subst h
      rfl
    · simp [Session.fromStorage, JSON.parse, Parsed.orEmptyObject, Parsed.prop,
        JsVal.truthy, h, JsVal.or, JsVal.asObject, Session.new, Session.empty]

/-- C17 (as amended): for every session and every mutating call — assigning
`authToken`, `aws`, `profile` or `store`, or calling `setItem` — the call makes exactly
one call on the storage, a `setItem` under the session key with the serialization of the
session as the call leaves it, so the storage then holds that record.  When that state
is one JSON can represent (no `undefined` as token, profile or property value), the
record is JSON for an object with exactly the four fields `authToken`, `profile`,
`store` and `aws`, each holding the value the session holds; a field or property that
holds `undefined` is left out of the record. -/
theorem C17_mutators_write_once (s : Session) (st : Storage) :
    (∀ v : JsVal, Session.writesOnce st (s.set_authToken st v) ∧
      (s.set_authToken st v).1 = { s with authToken := v }) ∧
    (∀ aws : JsObj, Session.writesOnce st (s.set_aws st aws) ∧
      (s.set_aws st aws).1 = { s with aws := aws }) ∧
    (∀ v : JsVal, Session.writesOnce st (s.set_profile st v) ∧
      (s.set_profile st v).1 = { s with profile := v }) ∧
    (∀ X : JsObj, Session.writesOnce st (s.set_store st X)) ∧
    (∀ (k : String) (v : JsVal), Session.writesOnce st (s.setItem st k v) ∧
      (s.setItem st k v).1 = { s with store := JsObj.assign s.store k v }) ∧
    (∀ r : Session, r.toJSON =
      JsVal.obj [("authToken", r.authToken), ("profile", r.profile),
        ("store", JsVal.obj r.get_store), ("aws", JsVal.obj r.aws)]) ∧
    (∀ r : Session, r.authToken.jsonSafe = true → r.profile.jsonSafe = true →
      jsonSafeFields r.store = true → jsonSafeFields r.aws = true →
      JSON.stringify r.toJSON =
        StoredText.json (JsVal.obj [("authToken", r.authToken), ("profile", r.profile),
          ("store", JsVal.obj r.store), ("aws", JsVal.obj r.aws)])) := by
  refine ⟨fun v => ⟨⟨rfl, ?_⟩, rfl⟩, fun aws => ⟨⟨rfl, ?_⟩, rfl⟩,
    fun v => ⟨⟨rfl, ?_⟩, rfl⟩, fun X => ⟨rfl, ?_⟩,
    fun k v => ⟨⟨rfl, ?_⟩, rfl⟩, fun _ => rfl, ?_⟩
  · exact Storage.getItem_append_setItem st _ _
  · exact Storage.getItem_append_setItem st _ _
  · exact Storage.getItem_append_setItem st _ _
  · exact Storage.getItem_append_setItem st _ _
  · exact Storage.getItem_append_setItem st _ _
  · intro r hTok hProf hStore hAws
    have hsafe : r.toJSON.jsonSafe = true := by
      simp [Session.toJSON, JsVal.jsonSafe, jsonSafeFields, hTok, hProf, hAws,
        Session.cloneUtility, jsonCloneFields_of_safe r.store hStore, hStore]
    have hclone := JsVal.jsonClone_of_safe r.toJSON hsafe
    have hjson : JSON.stringify r.toJSON = StoredText.json r.toJSON.jsonClone := by
      simp [Session.toJSON, JSON.stringify]
    rw [hjson, hclone]
    simp [Session.toJSON, Session.cloneUtility, jsonCloneFields_of_safe r.store hStore]

/-- C17, as stated, fails: after `authToken = undefined` on an empty session the record
in the storage has three fields, not four; and after `setItem('k', undefined)` the store
of the session has the key `k`, the store of the record has not. -/
theorem C17_counterexample :
    Session.persisted (Session.empty.set_authToken [] JsVal.undefined).2 =
      some (StoredText.json (JsVal.obj [("profile", JsVal.obj []),
        ("store", JsVal.obj []), ("aws", JsVal.obj [])])) ∧
    (Session.empty.setItem [] "k" JsVal.undefined).1.store = [("k", JsVal.undefined)] ∧
    Session.persisted (Session.empty.setItem [] "k" JsVal.undefined).2 =
      some (StoredText.json (JsVal.obj [("authToken", JsVal.null),
        ("profile", JsVal.obj []), ("store", JsVal.obj []), ("aws", JsVal.obj [])])) :=
  ⟨rfl, rfl, rfl⟩

/-- C18: for every client with a session attached, the authentication transition leaves
in the session the current token of the client as `authToken` and, as `aws`, an object
with the `accessKeyId`, `secretAccessKey` and `sessionToken` of the broker handle and an
`updatedAt` time stamp when the handle has all three, the empty object otherwise;
`profile` and `store` are as they were. -/
theorem C18_onAuth_persists_tokens (c : AuthenticationClient) (s : Session)
    (hs : c.session = some s) :
    c._onAuth.session = some
      { s with
        authToken := c.getAuthToken
        aws :=
          if validateAwsCredentials c.credentials.props then
            [("accessKeyId", JsObj.get c.credentials.props "accessKeyId"),
             ("secretAccessKey", JsObj.get c.credentials.props "secretAccessKey"),
             ("sessionToken", JsObj.get c.credentials.props "sessionToken"),
             ("updatedAt", JsVal.num c.now)]
          else [] } ∧
    c._onAuth.session.map Session.profile = some s.profile ∧
    c._onAuth.session.map Session.store = some s.store := by
  have h : c._onAuth.session = some
      { s with
        authToken := c.getAuthToken
        aws :=
          if validateAwsCredentials c.credentials.props then
            [("accessKeyId", JsObj.get c.credentials.props "accessKeyId"),
             ("secretAccessKey", JsObj.get c.credentials.props "secretAccessKey"),
             ("sessionToken", JsObj.get c.credentials.props "sessionToken"),
             ("updatedAt", JsVal.num c.now)]
          else [] } := by
    rcases c with ⟨sess, pe, cr, em, cf, ini, rdy, tm, sto, rg, bd, nw⟩
    simp only at hs
    subst hs
    cases rdy <;> cases ini <;> cases h1 : em.truthy <;> cases h2 : cf.truthy <;>
      cases h3 : validateAwsCredentials cr.props <;>
      simp [_onAuth, _onReady, schedule, _persistTokensToSession, Session.set_authToken,
        Session.set_aws, getAuthToken, h1, h2, h3]
  exact ⟨h, by rw [h]; rfl, by rw [h]; rfl⟩

/-- C18 at the client built with `cachedSession`, whose broker handle holds no
credentials yet. -/
theorem C18_witness :
    cachedClient.session = some cachedSession ∧
    cachedClient._onAuth.session =
      some { cachedSession with authToken := JsVal.str "tok1", aws := [] } :=
  ⟨rfl, (C18_onAuth_persists_tokens cachedClient cachedSession rfl).1⟩

/-- C19 fails on the code: for the client built with a session on which
`setItem('constructor', 1)` was called, the deauthentication transition leaves the key
`constructor` in the store, in the session and in the record of the storage, because
`'constructor' in {}` holds in the setter of `store` that `clear()` goes through. -/
theorem C19_failing_input :
    new sampleAmbient [] (some inheritedKeyConfig) = Except.ok inheritedKeyClient ∧
    inheritedKeyClient.session = some
      { authToken := JsVal.null, profile := JsVal.obj [],
        store := [("constructor", JsVal.num 1)], aws := [] } ∧
    (inheritedKeyClient._onDeauth JsVal.undefined).session = some
      { authToken := JsVal.null, profile := JsVal.obj [],
        store := [("constructor", JsVal.num 1)], aws := [] } ∧
    Session.persisted (inheritedKeyClient._onDeauth JsVal.undefined).storage =
      some (StoredText.json (JsVal.obj [("authToken", JsVal.null),
        ("profile", JsVal.obj []),
        ("store", JsVal.obj [("constructor", JsVal.num 1)]), ("aws", JsVal.obj [])])) ∧
    Session.empty.store = [] :=
  ⟨rfl, rfl, rfl, rfl, rfl⟩

/-- C20: for every client and every token `t`, `getAuthToken()` after `setAuthToken(t)`
returns `t`, the value written in the login map of the broker under the provider
endpoint of the client; after a later `setAuthToken(t2)` it returns `t2`.  The call
touches the login map only. -/
theorem C20_token_set_then_get (c : AuthenticationClient) (t t2 : JsVal) :
    (c.setAuthToken t).getAuthToken = t ∧
    ((c.setAuthToken t).setAuthToken t2).getAuthToken = t2 ∧
    (c.setAuthToken t).credentials.Logins =
      JsObj.set c.credentials.Logins c.providerEndpoint.toPropertyKey t ∧
    (c.setAuthToken t).getAuthToken =
      JsObj.get (c.setAuthToken t).credentials.Logins c.providerEndpoint.toPropertyKey ∧
    (c.setAuthToken t).credentials.calls = c.credentials.calls ∧
    (c.setAuthToken t).timers = c.timers := by
  refine ⟨?_, ?_, rfl, rfl, rfl, rfl⟩
  · simp [setAuthToken, getAuthToken, JsObj.get_set_same]
  · simp [setAuthToken, getAuthToken, JsObj.get_set_same]

/-- C21: for every config the constructor accepts, right after construction
`getAuthToken()` returns `config.existingAuthToken || null`, that is the token of the
config when one was supplied (a truthy value) and `null` otherwise; no call has been
made on the broker, no event has been scheduled, and `_initialized` and `_ready` are
both false. -/
theorem C21_fresh_client (amb : Ambient) (props : JsObj) (cfg : Config)
    (c : AuthenticationClient) (hNew : new amb props (some cfg) = Except.ok c) :
    c.getAuthToken = cfg.existingAuthToken.or JsVal.null ∧
    (cfg.existingAuthToken.truthy = true → c.getAuthToken = cfg.existingAuthToken) ∧
    (cfg.existingAuthToken.truthy = false → c.getAuthToken = JsVal.null) ∧
    c.credentials.calls = [] ∧ c.timers = [] ∧
    c._initialized = false ∧ c._ready = false := by
  obtain ⟨h1, -, -, h4, h5, h6, h7⟩ := getAuthToken_new amb props cfg c hNew
  refine ⟨h1, ?_, ?_, h4, h5, h6, h7⟩
  · intro ht
    rw [h1]
    simp [JsVal.or, ht]
  · intro ht
    rw [h1]
    simp [JsVal.or, ht]

/-- C21 at the scenario config, which supplies `tok1`, and at the config without
token. -/
theorem C21_witness :
    new sampleAmbient [] (some scenarioConfig) = Except.ok scenarioClient ∧
    scenarioClient.getAuthToken = JsVal.str "tok1" ∧
    tokenlessClient.getAuthToken = JsVal.null :=
  ⟨rfl, (C21_fresh_client sampleAmbient [] scenarioConfig scenarioClient rfl).1,
    (C21_fresh_client sampleAmbient [] tokenlessConfig tokenlessClient rfl).1⟩

/-- C22: for every config the constructor accepts, whose pool identifier is the string
`p`, construction sets the region of `AWS.config` to the part of `p` before its first
`:`; that part holds no `:`, what follows it in `p` is empty or starts with `:`, and it
is the whole of `p` when `p` holds no `:`. -/
theorem C22_region_from_pool (amb : Ambient) (props : JsObj) (cfg : Config)
    (c : AuthenticationClient) (p : String)
    (hNew : new amb props (some cfg) = Except.ok c)
    (hp : cfg.identityPoolId = JsVal.str p) :
    c.awsRegion = JsVal.str (regionOf p) ∧
    (∃ rest : List Char, p.data = (regionOf p).data ++ rest ∧
      (rest = [] ∨ rest.head? = some ':') ∧ ':' ∉ (regionOf p).data) ∧
    (':' ∉ p.data → regionOf p = p) := by
  obtain ⟨poolId, hpool, hc⟩ := new_ok_eq amb props cfg c hNew
  have e : poolId = p := by
    rw [hp] at hpool
    exact (JsVal.str.inj hpool).symm
  subst e
  refine ⟨by rw [hc], regionOf_split poolId, ?_⟩
  intro hno
  obtain ⟨rest, h1, h2, -⟩ := regionOf_split poolId
  have hrest : rest = [] := by
    rcases h2 with h | h
    · exact h
    · cases rest with
      | nil => rfl
      | cons a l =>
        simp only [List.head?_cons, Option.some.injEq] at h
        subst h
        exact absurd (by rw [h1]; simp) hno
  rw [hrest, List.append_nil] at h1
  have h3 : (regionOf poolId).data = poolId.data := h1.symm
  exact String.ext h3

/-- C22 on the example of the specification: the pool `us-east-1:xxx` gives the region
`us-east-1`. -/
theorem C22_witness :
    new sampleAmbient [] (some scenarioConfig) = Except.ok scenarioClient ∧
    scenarioConfig.identityPoolId = JsVal.str "us-east-1:xxx" ∧
    scenarioClient.awsRegion = JsVal.str "us-east-1" :=
  ⟨rfl, rfl,
    (C22_region_from_pool sampleAmbient [] scenarioConfig scenarioClient "us-east-1:xxx"
      rfl rfl).1⟩

/-- C23: for every storage, every key `k` and all non-empty strings `t` and `t2`,
`readStorage(k)` after `writeStorage(k, t)` returns `t`, and after a further
`writeStorage(k, t2)` it returns `t2`; on a storage where nothing was done under `k`,
`readStorage(k)` returns `null`. -/
theorem C23_write_then_read (st : Storage) (k t t2 : String)
    (ht : t ≠ "") (ht2 : t2 ≠ "") :
    webFactory.readStorage (webFactory.writeStorage st k (JsVal.str t)) k = JsVal.str t ∧
    webFactory.readStorage
      (webFactory.writeStorage (webFactory.writeStorage st k (JsVal.str t)) k
        (JsVal.str t2)) k = JsVal.str t2 ∧
    ((∀ op ∈ st, op.key ≠ k) → webFactory.readStorage st k = JsVal.null) ∧
    webFactory.readStorage [] k = JsVal.null := by
  have hw : ∀ (s0 : Storage) (u : String), u ≠ "" →
      webFactory.readStorage (webFactory.writeStorage s0 k (JsVal.str u)) k =
        JsVal.str u := by
    intro s0 u hu
    have h1 : webFactory.writeStorage s0 k (JsVal.str u) =
        s0 ++ [StorageOp.setItem k (JsVal.str u)] := by
      simp [webFactory.writeStorage, JsVal.truthy, JsVal.isString, hu]
    unfold webFactory.readStorage
    rw [h1, Storage.getItem_append_setItem]
    simp [webFactory.readItem, JSON.stringify, JsVal.jsonClone, JSON.parse, Parsed.orNull,
      JsVal.truthy, hu]
  refine ⟨hw st t ht, hw _ t2 ht2, ?_, rfl⟩
  intro h
  unfold webFactory.readStorage
  rw [getItem_untouched st k h]
  rfl

/-- C23 on the tokens of the test, from an empty storage. -/
theorem C23_witness :
    "test" ≠ "" ∧ "test2" ≠ "" ∧
    webFactory.readStorage (webFactory.writeStorage [] "k" (JsVal.str "test")) "k" =
      JsVal.str "test" ∧
    webFactory.readStorage
      (webFactory.writeStorage (webFactory.writeStorage [] "k" (JsVal.str "test")) "k"
        (JsVal.str "test2")) "k" = JsVal.str "test2" :=
  ⟨by decide, by decide,
    (C23_write_then_read [] "k" "test" "test2" (by decide) (by decide)).1,
    (C23_write_then_read [] "k" "test" "test2" (by decide) (by decide)).2.1⟩

/-- C24: whatever the storage holds under a key — nothing, the empty text, a text that
is not JSON, or JSON for any value — `readStorage` returns, without throwing, `null` or
a non-empty string, and it returns the string `t` exactly when the text is JSON for the
non-empty string `t`; the eight texts of the test all read as `null`; and `webFactory`
returns a client whenever the constructor would for the same config, whatever the
storage holds. -/
theorem C24_readStorage_malformed (item : Option StoredText) (st : Storage) (k : String)
    (amb : Ambient) (props : JsObj) (cfg : Config) (storageKey : JsVal) :
    (webFactory.readItem item = JsVal.null ∨
      ∃ t : String, t ≠ "" ∧ webFactory.readItem item = JsVal.str t) ∧
    (∀ t : String, webFactory.readItem item = JsVal.str t ↔
      (t ≠ "" ∧ item = some (StoredText.json (JsVal.str t)))) ∧
    webFactory.readStorage st k = webFactory.readItem (Storage.getItem st k) ∧
    malformedData.map (fun text => webFactory.readItem (some text)) =
      [JsVal.null, JsVal.null, JsVal.null, JsVal.null, JsVal.null, JsVal.null,
       JsVal.null, JsVal.null] ∧
    returns (webFactory amb props (some cfg) storageKey) =
      returns (new amb props (some cfg)) := by
  refine ⟨?_, ?_, rfl, rfl, ?_⟩
  · rcases readItem_cases item with ⟨h, -⟩ | ⟨t, ht, -, h⟩
    · exact Or.inl h
    · exact Or.inr ⟨t, ht, h⟩
  · intro t
    rcases readItem_cases item with ⟨h, hno⟩ | ⟨u, hu, hitem, h⟩
    · constructor
      · intro e
        rw [h] at e
        exact absurd e (by simp)
      · rintro ⟨ht, e⟩
        exact absurd e (hno t ht)
    · constructor
      · intro e
        rw [h] at e
        have : u = t := JsVal.str.inj e
        subst this
        exact ⟨hu, hitem⟩
      · rintro ⟨-, e⟩
        rw [hitem] at e
        simp only [Option.some.injEq, StoredText.json.injEq, JsVal.str.injEq] at e
        subst e
        exact h
  · unfold webFactory
    dsimp only
    rw [← returns_new_existingAuthToken amb props cfg
      (cfg.existingAuthToken.or
        (webFactory.readStorage amb.storage (webFactory.keyOf storageKey)))]
    have key : ∀ r : Except JsError AuthenticationClient,
        returns (match r with
          | Except.ok authClient => (Except.ok
              { client := authClient, storageKey := webFactory.keyOf storageKey } :
              Except JsError WebClient)
          | Except.error e => Except.error e) = returns r := by
      intro r
      cases r <;> rfl
    exact key _

/-- C25: for every config the constructor accepts and every storage key, `webFactory`
returns a client whose token is the token of the config when one is supplied (a truthy
value) and otherwise what `readStorage` returns for the key (`null` when no token is
stored under it); the storage is as it was.  The key is the given one, `authToken` when
none is given. -/
theorem C25_webFactory_token (amb : Ambient) (props : JsObj) (cfg : Config)
    (storageKey : JsVal) (hValid : returns (new amb props (some cfg)) = true) :
    ∃ w : WebClient, webFactory amb props (some cfg) storageKey = Except.ok w ∧
      w.storageKey = webFactory.keyOf storageKey ∧
      w.client.getAuthToken =
        (if cfg.existingAuthToken.truthy then cfg.existingAuthToken
         else webFactory.readStorage amb.storage (webFactory.keyOf storageKey)) ∧
      w.client.storage = amb.storage ∧
      (∀ k : String, k ≠ "" → webFactory.keyOf (JsVal.str k) = k) ∧
      webFactory.keyOf JsVal.undefined = "authToken" := by
  have hret := returns_new_existingAuthToken amb props cfg
    (cfg.existingAuthToken.or
      (webFactory.readStorage amb.storage (webFactory.keyOf storageKey)))
  rw [hValid] at hret
  obtain ⟨c, hc⟩ := returns_eq_true _ hret
  obtain ⟨h1, -, h3, -⟩ := getAuthToken_new amb props _ c hc
  refine ⟨{ client := c, storageKey := webFactory.keyOf storageKey }, ?_, rfl, ?_, h3, ?_,
    rfl⟩
  · unfold webFactory
    dsimp only
    rw [hc]
  · show c.getAuthToken = _
    rw [h1]
    cases ht : cfg.existingAuthToken.truthy
    · simp only [JsVal.or, ht, if_false, Bool.false_eq_true]
      exact readItem_or_null _
    · simp [JsVal.or, ht]
  · intro k hk
    simp [webFactory.keyOf, JsVal.or, JsVal.truthy, hk, JsVal.toPropertyKey]

/-- C25 with the token `fake123` stored under the key and none in the config. -/
theorem C25_witness :
    returns (new storedAmbient [] (some tokenlessConfig)) = true ∧
    ∃ w : WebClient,
      webFactory storedAmbient [] (some tokenlessConfig) (JsVal.str "storageKey") =
        Except.ok w ∧
      w.client.getAuthToken = JsVal.str "fake123" ∧ w.client.storage = tokenStorage := by
  refine ⟨rfl, ?_⟩
  obtain ⟨w, h1, -, h3, h4, -⟩ :=
    C25_webFactory_token storedAmbient [] tokenlessConfig (JsVal.str "storageKey") rfl
  exact ⟨w, h1, h3, h4⟩

/-- C26: for every client and every step — a method call, a broker callback, a broker
write or a direct run of a transition — and so for every sequence of steps, the latches
only go up: if `_initialized` is true before it is true after, and if `_ready` is true
before it is true after. -/
theorem C26_latches_monotonic (c : AuthenticationClient) (op : Op) (ops : List Op) :
    (c._initialized = true → (c.step op)._initialized = true) ∧
    (c._ready = true → (c.step op)._ready = true) ∧
    (c._initialized = true → (c.run ops)._initialized = true) ∧
    (c._ready = true → (c.run ops)._ready = true) := by
  obtain ⟨s1, s2⟩ := run_latches [op] c
  obtain ⟨r1, r2⟩ := run_latches ops c
  exact ⟨s1, s2, r1, r2⟩

/-- C27: for every client with a token present, `init()` makes exactly one call on the
broker, a `get` given the closure that sets `_initialized` and then runs the result
handler.  With a session whose `aws` holds `accessKeyId`, `secretAccessKey` and
`sessionToken`, it first writes those three values on the broker handle and runs the
authentication transition, before the call returns; without session, or with one whose
`aws` lacks a field, it does nothing but the call on the broker. -/
theorem C27_init_with_token (c : AuthenticationClient)
    (hTok : c.getAuthToken.truthy = true) :
    (∀ s : Session, c.session = some s → validateAwsCredentials s.aws = true →
      c.init = ((((c.setCredentialProp "accessKeyId"
          (JsObj.get s.aws "accessKeyId")).setCredentialProp "secretAccessKey"
          (JsObj.get s.aws "secretAccessKey")).setCredentialProp "sessionToken"
          (JsObj.get s.aws "sessionToken"))._onAuth).brokerCall
            (BrokerCall.get Callback.initGet) ∧
      JsObj.get c.init.credentials.props "accessKeyId" = JsObj.get s.aws "accessKeyId" ∧
      JsObj.get c.init.credentials.props "secretAccessKey" =
        JsObj.get s.aws "secretAccessKey" ∧
      JsObj.get c.init.credentials.props "sessionToken" = JsObj.get s.aws "sessionToken" ∧
      c.init._ready = true ∧
      c.init.timers = c.timers ++ c.readyEvents ++
        (if c.eventGate then [Event.authenticated] else [])) ∧
    (c.resumesCachedSession = false →
      c.init = c.brokerCall (BrokerCall.get Callback.initGet)) ∧
    c.init.credentials.calls =
      c.credentials.calls ++ [BrokerCall.get Callback.initGet] ∧
    (∀ (d : AuthenticationClient) (err : JsVal),
      d.runCallback Callback.initGet err =
        ({ d with _initialized := true })._authHandler err ∧
      (d.runCallback Callback.initGet err)._initialized = true) := by
  refine ⟨?_, ?_, (init_token_fields c hTok).2.2.2.2.2.2, ?_⟩
  · intro s hs hv
    have hres : c.resumesCachedSession = true := by simp [resumesCachedSession, hs, hv]
    have heq : c.init = ((((c.setCredentialProp "accessKeyId"
          (JsObj.get s.aws "accessKeyId")).setCredentialProp "secretAccessKey"
          (JsObj.get s.aws "secretAccessKey")).setCredentialProp "sessionToken"
          (JsObj.get s.aws "sessionToken"))._onAuth).brokerCall
            (BrokerCall.get Callback.initGet) := by
      unfold init
      rw [if_pos hTok]
      simp only [hs, hv, if_true]
    have hcred := (onAuth_fields (((c.setCredentialProp "accessKeyId"
          (JsObj.get s.aws "accessKeyId")).setCredentialProp "secretAccessKey"
          (JsObj.get s.aws "secretAccessKey")).setCredentialProp "sessionToken"
          (JsObj.get s.aws "sessionToken"))).2.2.2.2.1
    have hprops : c.init.credentials.props =
        JsObj.set (JsObj.set (JsObj.set c.credentials.props "accessKeyId"
          (JsObj.get s.aws "accessKeyId")) "secretAccessKey"
          (JsObj.get s.aws "secretAccessKey")) "sessionToken"
          (JsObj.get s.aws "sessionToken") := by
      rw [heq]
      simp only [brokerCall, hcred]
      rfl
    have ht := init_token_timers c hTok
    rw [hres] at ht
    refine ⟨heq, ?_, ?_, ?_, ?_, ?_⟩
    · rw [hprops, JsObj.get_set_other _ _ _ _ (by decide),
        JsObj.get_set_other _ _ _ _ (by decide), JsObj.get_set_same]
    · rw [hprops, JsObj.get_set_other _ _ _ _ (by decide), JsObj.get_set_same]
    · rw [hprops, JsObj.get_set_same]
    · rw [(init_token_fields c hTok).2.1, hres]
      simp
    · simpa using ht
  · intro hres
    unfold init
    rw [if_pos hTok]
    unfold resumesCachedSession at hres
    cases hs : c.session with
    | none => rfl
    | some s =>
      have hv : validateAwsCredentials s.aws = false := by simpa [hs] using hres
      simp only [hv]
      rfl
  · intro d err
    have h : d.runCallback Callback.initGet err =
        ({ d with _initialized := true })._authHandler err := rfl
    exact ⟨h, (initGetCallback_fields d err).1⟩

/-- C27 at the client built with a session that holds cached credentials. -/
theorem C27_witness :
    cachedClient.getAuthToken.truthy = true ∧
    cachedClient.init.credentials.calls = [BrokerCall.get Callback.initGet] ∧
    JsObj.get cachedClient.init.credentials.props "accessKeyId" = JsVal.str "AKIA" ∧
    cachedClient.init.timers = [Event.authenticated] :=
  ⟨rfl, (C27_init_with_token cachedClient rfl).2.2.1,
    ((C27_init_with_token cachedClient rfl).1 cachedSession rfl rfl).2.1,
    ((C27_init_with_token cachedClient rfl).1 cachedSession rfl rfl).2.2.2.2.2⟩

/-- C28: the deauthentication transition leaves the broker handle as it is, login map
and credential fields included: for every client state and every error,
`getAuthToken()` and `isAuthenticated()` return after the transition what they returned
before it.  So `isAuthenticated()` can be true while a `deauthenticated` event is
scheduled, as on the scenario client after a successful `init()`. -/
theorem C28_onDeauth_keeps_credentials (c : AuthenticationClient) (err : JsVal) :
    (c._onDeauth err).credentials = c.credentials ∧
    (c._onDeauth err).getAuthToken = c.getAuthToken ∧
    (c._onDeauth err).isAuthenticated = c.isAuthenticated ∧
    (authenticatedClient._onDeauth sampleError).isAuthenticated = true ∧
    (authenticatedClient._onDeauth sampleError).timers =
      [Event.authenticated, Event.deauthenticated sampleError] := by
  obtain ⟨-, -, -, -, h5, h6⟩ := onDeauth_fields c err
  have hk : (c._onDeauth err).getAuthToken = c.getAuthToken :=
    getAuthToken_congr _ _ (by rw [h5]) h6
  refine ⟨h5, hk, ?_, rfl, rfl⟩
  unfold isAuthenticated
  rw [hk, h5]

/-- C29: for every config with the three identifiers present, the pool identifier a
string: when the config carries a `Session` instance the client returned by
`resumeSession` has that session, and when it carries no session (a falsy value) the
client has the session `fromStorage()` restores; in both cases its token is the token of
the config when one is supplied (a truthy value) and otherwise the `authToken` of that
session, `null` when the session has none. -/
theorem C29_resumeSession (amb : Ambient) (props : JsObj) (cfg : Config)
    (hPool : cfg.identityPoolId.truthy = true) (hStr : cfg.identityPoolId.isString = true)
    (hRole : cfg.authRoleArn.truthy = true) (hEnd : cfg.providerEndpoint.truthy = true) :
    (∀ s : Session, cfg.session = SessionArg.inst s →
      ∃ c, resumeSession amb props (some cfg) = some (Except.ok c) ∧
        c.session = some s ∧
        c.getAuthToken =
          (if cfg.existingAuthToken.truthy then cfg.existingAuthToken
           else s.authToken.or JsVal.null)) ∧
    (∀ (v : JsVal) (r : Session), cfg.session = SessionArg.value v → v.truthy = false →
      Session.fromStorage (Session.persisted amb.storage) = some r →
      ∃ c, resumeSession amb props (some cfg) = some (Except.ok c) ∧
        c.session = some r ∧
        c.getAuthToken =
          (if cfg.existingAuthToken.truthy then cfg.existingAuthToken
           else r.authToken.or JsVal.null)) := by
  have build : ∀ (s : Session) (t : JsVal),
      ∃ c, new amb props (some { cfg with session := SessionArg.inst s
                                          existingAuthToken := t }) = Except.ok c ∧
        c.session = some s ∧ c.getAuthToken = t.or JsVal.null := by
    intro s t
    have hret : returns (new amb props (some { cfg with session := SessionArg.inst s
                                                        existingAuthToken := t })) = true := by
      rw [returns_new]
      simp [hPool, hStr, hRole, hEnd, instanceofSession]
    obtain ⟨c, hc⟩ := returns_eq_true _ hret
    obtain ⟨h1, h2, -⟩ := getAuthToken_new amb props _ c hc
    exact ⟨c, hc, h2, h1⟩
  have tok : ∀ a : JsVal, (cfg.existingAuthToken.or a).or JsVal.null =
      (if cfg.existingAuthToken.truthy then cfg.existingAuthToken
       else a.or JsVal.null) := by
    intro a
    cases ht : cfg.existingAuthToken.truthy <;> simp [JsVal.or, ht]
  refine ⟨?_, ?_⟩
  · intro s hs
    obtain ⟨c, hc, h2, h1⟩ := build s (cfg.existingAuthToken.or s.authToken)
    refine ⟨c, ?_, h2, by rw [h1, tok]⟩
    simp only [resumeSession, hs]
    rw [hc]
  · intro v r hv hf hr
    obtain ⟨c, hc, h2, h1⟩ := build r (cfg.existingAuthToken.or r.authToken)
    refine ⟨c, ?_, h2, by rw [h1, tok]⟩
    simp only [resumeSession, hv, hf, hr, hc]
    simp

/-- C29 with a session record in the storage and no session or token in the config. -/
theorem C29_witness :
    tokenlessConfig.identityPoolId.truthy = true ∧
    tokenlessConfig.identityPoolId.isString = true ∧
    tokenlessConfig.authRoleArn.truthy = true ∧
    tokenlessConfig.providerEndpoint.truthy = true ∧
    Session.fromStorage (Session.persisted storedAmbient.storage) = some cachedSession ∧
    ∃ c, resumeSession storedAmbient [] (some tokenlessConfig) = some (Except.ok c) ∧
      c.session = some cachedSession ∧ c.getAuthToken = JsVal.str "tok1" :=
  ⟨rfl, rfl, rfl, rfl, rfl,
    (C29_resumeSession storedAmbient [] tokenlessConfig rfl rfl rfl rfl).2
      JsVal.undefined cachedSession rfl rfl rfl⟩

end AuthenticationClient

end CognitoAuth
